import Mathlib

/-!
Verification development for the momentum-strategy pattern-detection core.

The repository's core consists of five stateless chart-pattern detectors
(GapAndGo, FlatBreakout top/bottom, BullFlag, FirstPullback, ABCD), a gap
scanner and a VWAP band calculator, all consuming ordered OHLCV candle
series.  Prices and volumes are embedded as rationals, timestamps as
naturals.  Python lists are Lean lists; indexed reads use getD with junk
default 0 at positions which the control flow keeps in range; Python
while/for loops over indices are embedded as structurally recursive
functions on an explicit fuel argument, called with fuel at least the
number of remaining iterations (the top-level entry points pass the
series length, which always suffices).  Fallible code (Python raising) is
embedded with Except.
-/

/-- One OHLCV candle: timestamp, open, high, low, close prices and volume.
The Python field name open is a Lean keyword, hence openP. -/
structure Candle where
  time : ℕ
  openP : ℚ
  high : ℚ
  low : ℚ
  close : ℚ
  volume : ℚ
deriving DecidableEq

/-- Junk candle used as getD default; the control flow keeps every read
in range wherever it matters. -/
def dCandle : Candle := ⟨0, 0, 0, 0, 0, 0⟩

/-- Projection of a candle series to its list of highs. -/
def highsOf (cs : List Candle) : List ℚ := cs.map Candle.high

/-- Projection of a candle series to its list of lows. -/
def lowsOf (cs : List Candle) : List ℚ := cs.map Candle.low

/-- Projection of a candle series to its list of volumes. -/
def volsOf (cs : List Candle) : List ℚ := cs.map Candle.volume

/-- Projection of a candle series to its list of timestamps. -/
def timesOf (cs : List Candle) : List ℕ := cs.map Candle.time

/-- Projection of a candle series to its list of opens. -/
def opensOf (cs : List Candle) : List ℚ := cs.map Candle.openP

/-- Python slice l[a:b] (for a ≤ b). -/
def pySlice {α : Type} (l : List α) (a b : ℕ) : List α := (l.drop a).take (b - a)

/-- Python min() over a list of rationals; 0 on the empty list, on which
Python would raise — every use below is on a provably non-empty list. -/
def listMin : List ℚ → ℚ
  | [] => 0
  | x :: xs => xs.foldl min x

/-- Python max() over a list of rationals; 0 on the empty list, on which
Python would raise — every use below is on a provably non-empty list. -/
def listMax : List ℚ → ℚ
  | [] => 0
  | x :: xs => xs.foldl max x

namespace GapScanner

/-- One instrument of the scanned universe together with the close of its
previous-day daily candle and the open of its today daily candle (the two
prices scan_gap_up reads; instruments whose candle fetch fails are skipped
by I/O code before any gap arithmetic and are not modelled). The idx field
stands for the ticker/figi/uid identity. -/
structure Instr where
  idx : ℕ
  prevClose : ℚ
  openP : ℚ
deriving DecidableEq

/-- The record scan_gap_up builds per instrument:
gap = (today_open_price - prev_close_price) / prev_close_price. -/
structure GapRecord where
  idx : ℕ
  prev_close : ℚ
  openP : ℚ
  gap : ℚ
deriving DecidableEq

/-- Build the gap record of one instrument. -/
def mkRecord (a : Instr) : GapRecord :=
  ⟨a.idx, a.prevClose, a.openP, (a.openP - a.prevClose) / a.prevClose⟩

/-- The running max-gap tracking: if gap > max_gap then replace
(max_gap starts at -inf, modelled by the none accumulator). -/
def trackMax (acc : Option GapRecord) (r : GapRecord) : Option GapRecord :=
  match acc with
  | none => some r
  | some m => if m.gap < r.gap then some r else some m

/-- Insert into a gap-descending list, after strictly larger gaps and
before equal or smaller ones (realizing the stability of Python's
sorted(..., key=gap, reverse=True) for elements inserted left to right). -/
def insertDesc (x : GapRecord) : List GapRecord → List GapRecord
  | [] => [x]
  | y :: ys => if x.gap < y.gap then y :: insertDesc x ys else x :: y :: ys

/-- Stable sort by gap descending, as Python's sorted(..., reverse=True). -/
def sortGapDesc : List GapRecord → List GapRecord
  | [] => []
  | x :: xs => insertDesc x (sortGapDesc xs)

/-- The unsorted result list of scan_gap_up: records whose gap meets the
threshold, in scan order; if none do, the single first record of maximum
gap (when any record exists), appended as fallback. -/
def gapCandidates (instrs : List Instr) (min_gap : ℚ) : List GapRecord :=
  let records := instrs.map mkRecord
  let filtered := records.filter (fun r => decide (min_gap ≤ r.gap))
  if filtered.isEmpty then
    match records.foldl trackMax none with
    | some m => [m]
    | none => []
  else filtered

/-- scan_gap_up: threshold filter, max-gap fallback, then sort by gap
descending (stable). -/
def scan_gap_up (instrs : List Instr) (min_gap : ℚ) : List GapRecord :=
  sortGapDesc (gapCandidates instrs min_gap)

end GapScanner

namespace VwapLevels

/-- A pandas float value: an ordinary rational, NaN, or a signed infinity
(the latter three arise from division by a zero cumulative volume). -/
inductive PFloat where
  | val : ℚ → PFloat
  | nan : PFloat
  | pinf : PFloat
  | ninf : PFloat
deriving DecidableEq

/-- Pandas element-wise division: x/0 is NaN for x = 0 and a signed
infinity otherwise (no exception is raised). -/
def pdDiv (a b : ℚ) : PFloat :=
  if b = 0 then
    if a = 0 then PFloat.nan else if 0 < a then PFloat.pinf else PFloat.ninf
  else PFloat.val (a / b)

/-- Running prefix sums (pandas cumsum). -/
def cumsumAux (acc : ℚ) : List ℚ → List ℚ
  | [] => []
  | x :: xs => (acc + x) :: cumsumAux (acc + x) xs

/-- Pandas Series.cumsum. -/
def cumsum (l : List ℚ) : List ℚ := cumsumAux 0 l

/-- The _compute_vwap function: (close*volume).cumsum() / volume.cumsum(),
element-wise, on a data frame of (close, volume) rows. -/
def compute_vwap (bars : List (ℚ × ℚ)) : List PFloat :=
  List.zipWith pdDiv (cumsum (bars.map (fun b => b.1 * b.2)))
    (cumsum (bars.map (fun b => b.2)))

/-- Pandas subtraction of a float from a rational close price. -/
def pfSubFrom (c : ℚ) : PFloat → PFloat
  | PFloat.val v => PFloat.val (c - v)
  | PFloat.nan => PFloat.nan
  | PFloat.pinf => PFloat.ninf
  | PFloat.ninf => PFloat.pinf

/-- Whether a pandas float is a (signed) infinity. -/
def isInf : PFloat → Bool
  | PFloat.pinf => true
  | PFloat.ninf => true
  | _ => false

/-- The rational carried by an ordinary float value, if any. -/
def toValQ : PFloat → Option ℚ
  | PFloat.val q => some q
  | _ => none

/-- The result of pandas Series.std (sample standard deviation, ddof 1):
NaN when fewer than two non-NaN samples remain or an infinity is present;
otherwise the square root of the sample variance, which is irrational in
general and therefore carried symbolically by its radicand. -/
inductive StdResult where
  | nan : StdResult
  | sqrtOf : ℚ → StdResult
deriving DecidableEq

/-- Sample variance (divisor n-1) of a list of rationals. -/
def sampleVar (vals : List ℚ) : ℚ :=
  ((vals.map (fun x => (x - vals.sum / (vals.length : ℚ)) ^ 2)).sum) /
    ((vals.length : ℚ) - 1)

/-- Pandas Series.std with its default skipna: NaN entries are dropped;
any infinity or fewer than 2 remaining samples give NaN. -/
def pandasStd (xs : List PFloat) : StdResult :=
  if xs.any isInf then StdResult.nan
  else
    let vals := xs.filterMap toValQ
    if vals.length < 2 then StdResult.nan
    else StdResult.sqrtOf (sampleVar vals)

/-- A support/resistance level, vwap plus or minus the (symbolic) std. -/
inductive BandVal where
  | nan : BandVal
  | pinf : BandVal
  | ninf : BandVal
  | valMinusSqrt : ℚ → ℚ → BandVal
  | valPlusSqrt : ℚ → ℚ → BandVal
deriving DecidableEq

/-- support = vwap - std. -/
def pfMinusStd : PFloat → StdResult → BandVal
  | _, StdResult.nan => BandVal.nan
  | PFloat.nan, _ => BandVal.nan
  | PFloat.pinf, _ => BandVal.pinf
  | PFloat.ninf, _ => BandVal.ninf
  | PFloat.val q, StdResult.sqrtOf v => BandVal.valMinusSqrt q v

/-- resistance = vwap + std. -/
def pfPlusStd : PFloat → StdResult → BandVal
  | _, StdResult.nan => BandVal.nan
  | PFloat.nan, _ => BandVal.nan
  | PFloat.pinf, _ => BandVal.pinf
  | PFloat.ninf, _ => BandVal.ninf
  | PFloat.val q, StdResult.sqrtOf v => BandVal.valPlusSqrt q v

/-- The dictionary calc_vwap_levels returns. -/
structure VwapBand where
  vwap : PFloat
  support : BandVal
  resistance : BandVal
  std : StdResult
deriving DecidableEq

/-- calc_vwap_levels on one session's (close, volume) rows: the only error
path is an empty series (raised by the candle loader); otherwise the final
cumulative vwap, the std of close - running-vwap, and vwap ∓ std are
returned unconditionally — there is no zero-volume check anywhere. -/
def calc_vwap_levels (bars : List (ℚ × ℚ)) : Except String VwapBand :=
  match bars with
  | [] => Except.error "ValueError: no minute candles"
  | _ :: _ =>
    let vw := compute_vwap bars
    let std := pandasStd (List.zipWith (fun b v => pfSubFrom b.1 v) bars vw)
    let vwapToday := vw.getLastD PFloat.nan
    Except.ok ⟨vwapToday, pfMinusStd vwapToday std, pfPlusStd vwapToday std, std⟩

end VwapLevels

namespace GapAndGo

/-- The response record of the gap_and_go endpoint (detector part):
the first candle's high and low are always reported; entry, stop and
trigger time only when the pattern triggered. -/
structure GapAndGoResponse where
  first_candle_high : ℚ
  first_candle_low : ℚ
  triggered : Bool
  entry_price : Option ℚ
  stop_price : Option ℚ
  trigger_time : Option ℕ
deriving DecidableEq

/-- First candle of the window whose high strictly exceeds fh (the
for-loop over candles[1:5] with break on first match). -/
def gapGoFind (fh : ℚ) : List Candle → Option Candle
  | [] => none
  | c :: cs => if fh < c.high then some c else gapGoFind fh cs

/-- The gap_and_go detection: on an empty series the endpoint raises
(HTTP 500, no minute candles); otherwise scan candles 2..5 for the first
high above the first candle's high fh; entry = fh, stop = first candle's
low, trigger time = the matching candle's time. -/
def gap_and_go (candles : List Candle) : Except String GapAndGoResponse :=
  match candles with
  | [] => Except.error "No minute candles"
  | c0 :: rest =>
    match gapGoFind c0.high (rest.take 4) with
    | some c => Except.ok ⟨c0.high, c0.low, true, some c0.high, some c0.low, some c.time⟩
    | none => Except.ok ⟨c0.high, c0.low, false, none, none, none⟩

end GapAndGo

namespace FlatBreakout

/-- The PatternResult record of the flat_breakout service. -/
structure PatternResult where
  triggered : Bool
  entry_price : Option ℚ
  stop_price : Option ℚ
  trigger_time : Option ℕ
deriving DecidableEq

/-- Python: max(j for j, hj in enumerate(highs[:i]) if abs(hj - prev_max)
< 1e-9). The foldl-max of the matching indices; 0 on no match, where
Python would raise — at every use the level was counted at least twice
among highs[:i], so a match exists. -/
def lastTouchIdx (highs : List ℚ) (level : ℚ) (i : ℕ) : ℕ :=
  ((List.range i).filter
    (fun j => decide (|highs.getD j 0 - level| < 1 / 1000000000))).foldl max 0

/-- The stop price of a flat-top breakout at candle i over level:
the minimum low strictly between the last touch of the level and the
breakout candle, or the last-touch candle's low if none lie between. -/
def stopAt (highs lows : List ℚ) (level : ℚ) (i : ℕ) : ℚ :=
  let lt := lastTouchIdx highs level i
  if lt < i - 1 then listMin (pySlice lows (lt + 1) i) else lows.getD lt 0

/-- The scanning loop of _analyze_flat_top from index i with running
maximum maxSoFar: on the first candle whose high exceeds the running
maximum after the previous maximum was seen at least twice (the dict
seen_highs holds the exact-equality counts of highs[0..i]), report the
breakout; otherwise run to the end untriggered. -/
def flatTopLoop (highs lows : List ℚ) (times : List ℕ) :
    ℕ → ℕ → ℚ → PatternResult
  | 0, _, _ => ⟨false, none, none, none⟩
  | fuel + 1, i, maxSoFar =>
    if i < highs.length then
      if maxSoFar < highs.getD i 0 then
        if 2 ≤ (highs.take (i + 1)).count maxSoFar then
          ⟨true, some maxSoFar, some (stopAt highs lows maxSoFar i),
            some (times.getD i 0)⟩
        else flatTopLoop highs lows times fuel (i + 1) (highs.getD i 0)
      else flatTopLoop highs lows times fuel (i + 1) maxSoFar
    else ⟨false, none, none, none⟩

/-- _analyze_flat_top: reads highs[0] first, so the empty series raises
IndexError; otherwise scan from index 1 with running maximum highs[0]. -/
def analyze_flat_top (candles : List Candle) : Except String PatternResult :=
  match candles with
  | [] => Except.error "IndexError: list index out of range"
  | c0 :: rest =>
    Except.ok (flatTopLoop (highsOf (c0 :: rest)) (lowsOf (c0 :: rest))
      (timesOf (c0 :: rest)) (c0 :: rest).length 1 c0.high)

/-- The stop price of a flat-bottom breakdown at candle i over level:
the maximum high strictly between the last touch of the level and the
breakdown candle, or the last-touch candle's high if none lie between. -/
def stopAtB (highs lows : List ℚ) (level : ℚ) (i : ℕ) : ℚ :=
  let lt := lastTouchIdx lows level i
  if lt < i - 1 then listMax (pySlice highs (lt + 1) i) else highs.getD lt 0

/-- The scanning loop of _analyze_flat_bottom, mirror of flatTopLoop. -/
def flatBottomLoop (highs lows : List ℚ) (times : List ℕ) :
    ℕ → ℕ → ℚ → PatternResult
  | 0, _, _ => ⟨false, none, none, none⟩
  | fuel + 1, i, minSoFar =>
    if i < lows.length then
      if lows.getD i 0 < minSoFar then
        if 2 ≤ (lows.take (i + 1)).count minSoFar then
          ⟨true, some minSoFar, some (stopAtB highs lows minSoFar i),
            some (times.getD i 0)⟩
        else flatBottomLoop highs lows times fuel (i + 1) (lows.getD i 0)
      else flatBottomLoop highs lows times fuel (i + 1) minSoFar
    else ⟨false, none, none, none⟩

/-- _analyze_flat_bottom: reads lows[0] first, so the empty series raises
IndexError; otherwise scan from index 1 with running minimum lows[0]. -/
def analyze_flat_bottom (candles : List Candle) : Except String PatternResult :=
  match candles with
  | [] => Except.error "IndexError: list index out of range"
  | c0 :: rest =>
    Except.ok (flatBottomLoop (highsOf (c0 :: rest)) (lowsOf (c0 :: rest))
      (timesOf (c0 :: rest)) (c0 :: rest).length 1 c0.low)

end FlatBreakout

namespace BullFlag

/-- The BullFlagResult record. -/
structure BullFlagResult where
  triggered : Bool
  entry_price : Option ℚ
  stop_price : Option ℚ
  target_price : Option ℚ
  trigger_time : Option ℕ
deriving DecidableEq

/-- The consolidation walk: from index j, advance while the high stays at
or below the peak, tracking the lowest low seen; returns the stopping
index (first index with high above peak, or the series end) and the
lowest low (initialized to the peak price by the caller). -/
def bullFlagWalk (highs lows : List ℚ) (peak : ℚ) :
    ℕ → ℕ → ℚ → ℕ × ℚ
  | 0, j, ll => (j, ll)
  | fuel + 1, j, ll =>
    if j < highs.length ∧ highs.getD j 0 ≤ peak then
      bullFlagWalk highs lows peak fuel (j + 1)
        (if lows.getD j 0 < ll then lows.getD j 0 else ll)
    else (j, ll)

/-- The consolidation walk of the scan iteration at local peak i: from
index i+1 with lowest-low tracker initialized to the peak price. -/
def walkAt (cs : List Candle) (i : ℕ) : ℕ × ℚ :=
  bullFlagWalk (highsOf cs) (lowsOf cs) ((highsOf cs).getD i 0) cs.length (i + 1)
    ((highsOf cs).getD i 0)

/-- cons_volumes = volumes[i+1:j] if j > i+1 else [volumes[i+1]]. -/
def consList (vols : List ℚ) (i j : ℕ) : List ℚ :=
  if i + 1 < j then pySlice vols (i + 1) j else [vols.getD (i + 1) 0]

/-- avg_cons_vol: the mean of cons_volumes (0 if empty), floored to 1
when zero to avoid division by zero. -/
def consAvg (vols : List ℚ) (i j : ℕ) : ℚ :=
  let cons := consList vols i j
  let avg := if cons.isEmpty then 0 else cons.sum / (cons.length : ℚ)
  if avg = 0 then 1 else avg

/-- One iteration of the bull-flag scan at index i: none means the Python
loop continues to i+1 (no local peak, no confirmed consolidation, no
breakout, or a low-volume breakout); some r means the loop breaks with
the triggered result r. -/
def bullFlagTry (cs : List Candle) (i : ℕ) : Option BullFlagResult :=
  let highs := highsOf cs
  let lows := lowsOf cs
  let vols := volsOf cs
  let times := timesOf cs
  if highs.getD i 0 ≤ highs.getD (i - 1) 0 ∨ highs.getD i 0 ≤ highs.getD (i + 1) 0 then
    none
  else if highs.getD (i + 1) 0 < highs.getD i 0 ∧ highs.getD (i + 2) 0 < highs.getD (i + 1) 0 then
    let peak := highs.getD i 0
    let w := walkAt cs i
    if w.1 < cs.length ∧ peak < highs.getD w.1 0 then
      if vols.getD w.1 0 < 2 * consAvg vols i w.1 then none
      else
        some ⟨true, some peak, some w.2,
          some (peak + (peak - listMin (pySlice lows (i - 10) (i + 1)))),
          some (times.getD w.1 0)⟩
    else none
  else none

/-- The for-loop of _analyze_bull_flag over i in range(2, n-2). -/
def bullFlagLoop (cs : List Candle) : ℕ → ℕ → BullFlagResult
  | 0, _ => ⟨false, none, none, none, none⟩
  | fuel + 1, i =>
    if i < cs.length - 2 then
      match bullFlagTry cs i with
      | some r => r
      | none => bullFlagLoop cs fuel (i + 1)
    else ⟨false, none, none, none, none⟩

/-- _analyze_bull_flag. -/
def analyze_bull_flag (cs : List Candle) : BullFlagResult :=
  bullFlagLoop cs cs.length 2

end BullFlag

namespace FirstPullback

/-- The PullbackResult record. -/
structure PullbackResult where
  triggered : Bool
  entry_price : Option ℚ
  stop_price : Option ℚ
  target_price : Option ℚ
  trigger_time : Option ℕ
deriving DecidableEq

/-- Phase 1 of _analyze_first_pullback: extend the initial impulse while
each candle makes a new high, tracking the peak price, its index and the
maximum volume of the impulse; the first candle that fails to make a new
high is the pullback start.  Returns (pullback_start, peak_price,
peak_index, peak_volume), or none when the price never stops rising. -/
def fpPhase1 (cs : List Candle) : ℕ → ℕ → ℚ → ℕ → ℚ → Option (ℕ × ℚ × ℕ × ℚ)
  | 0, _, _, _, _ => none
  | fuel + 1, i, peak, pIdx, pVol =>
    if i < cs.length then
      if peak < (highsOf cs).getD i 0 then
        fpPhase1 cs fuel (i + 1) ((highsOf cs).getD i 0) i
          (if pVol < (volsOf cs).getD i 0 then (volsOf cs).getD i 0 else pVol)
      else some (i, peak, pIdx, pVol)
    else none

/-- The running-minimum update of the pullback low, as written in the
source (if curr_low < pullback_low then replace). -/
def pyMinFold (pb0 : ℚ) (l : List ℚ) : ℚ :=
  l.foldl (fun acc x => if x < acc then x else acc) pb0

/-- Phase 2 of _analyze_first_pullback: walk j from the pullback start to
len-2, updating the pullback low with candle j's low, and stop at the
first j whose next candle's high exceeds candle j's high.  Returns
(trigger_idx = j+1, last_pullback_high = highs[j], pullback_low), or none
when no resumption occurs. -/
def fpPhase2 (cs : List Candle) : ℕ → ℕ → ℚ → Option (ℕ × ℚ × ℚ)
  | 0, _, _ => none
  | fuel + 1, j, pb =>
    if j < cs.length - 1 then
      let pb2 := if (lowsOf cs).getD j 0 < pb then (lowsOf cs).getD j 0 else pb
      if (highsOf cs).getD j 0 < (highsOf cs).getD (j + 1) 0 then
        some (j + 1, (highsOf cs).getD j 0, pb2)
      else fpPhase2 cs fuel (j + 1) pb2
    else none

/-- _analyze_first_pullback: fewer than 2 candles is untriggered; then
phase 1 (impulse) and phase 2 (pullback and resumption trigger), then the
three validation gates — minimum 3 percent move, pullback volume below
the impulse's maximum volume, pullback retracing at most half the move. -/
def analyze_first_pullback (cs : List Candle) : PullbackResult :=
  if cs.length < 2 then ⟨false, none, none, none, none⟩
  else
    match fpPhase1 cs cs.length 1 ((highsOf cs).getD 0 0) 0 ((volsOf cs).getD 0 0) with
    | none => ⟨false, none, none, none, none⟩
    | some (ps, peak, _, peakVol) =>
      match fpPhase2 cs cs.length ps ((lowsOf cs).getD ps 0) with
      | none => ⟨false, none, none, none, none⟩
      | some (trigIdx, lastHigh, pbLow) =>
        if peak / (opensOf cs).getD 0 0 - 1 < 3 / 100 then
          ⟨false, none, none, none, none⟩
        else if peakVol ≤ listMax (pySlice (volsOf cs) ps trigIdx) then
          ⟨false, none, none, none, none⟩
        else if pbLow < (opensOf cs).getD 0 0 + (1 / 2) * (peak - (opensOf cs).getD 0 0) then
          ⟨false, none, none, none, none⟩
        else
          ⟨true, some lastHigh, some pbLow, some peak,
            some ((timesOf cs).getD trigIdx 0)⟩

end FirstPullback

namespace ABCD

/-- The ABCDResult record. -/
structure ABCDResult where
  triggered : Bool
  entry_price : Option ℚ
  stop_price : Option ℚ
  target_price : Option ℚ
  trigger_time : Option ℕ
deriving DecidableEq

/-- The pullback walk after point B: from index j, advance while the high
stays at or below the peak, tracking the lowest low (point C candidate);
identical to the bull-flag consolidation walk. -/
def abcdWalk (highs lows : List ℚ) (peak : ℚ) : ℕ → ℕ → ℚ → ℕ × ℚ
  | 0, j, ll => (j, ll)
  | fuel + 1, j, ll =>
    if j < highs.length ∧ highs.getD j 0 ≤ peak then
      abcdWalk highs lows peak fuel (j + 1)
        (if lows.getD j 0 < ll then lows.getD j 0 else ll)
    else (j, ll)

/-- The pullback walk of the scan iteration at point B = index i: from
index i+1 with lowest-low tracker initialized to the peak price. -/
def cWalk (cs : List Candle) (i : ℕ) : ℕ × ℚ :=
  abcdWalk (highsOf cs) (lowsOf cs) ((highsOf cs).getD i 0) cs.length (i + 1)
    ((highsOf cs).getD i 0)

/-- cons_volumes = volumes[i+1:j] if j > i+1 else [volumes[i+1]]. -/
def pullList (vols : List ℚ) (i j : ℕ) : List ℚ :=
  if i + 1 < j then pySlice vols (i + 1) j else [vols.getD (i + 1) 0]

/-- avg_cons_vol of the ABCD pullback, floored to 1 when zero. -/
def pullAvg (vols : List ℚ) (i j : ℕ) : ℚ :=
  let cons := pullList vols i j
  let avg := if cons.isEmpty then 0 else cons.sum / (cons.length : ℚ)
  if avg = 0 then 1 else avg

/-- Point A's price: the minimum low over the lookback window
lows[max(0, i-10) .. i] ending at point B. -/
def aPrice (cs : List Candle) (i : ℕ) : ℚ :=
  listMin (pySlice (lowsOf cs) (i - 10) (i + 1))

/-- The maximum volume of the A-to-B impulse window. -/
def impulseVolMax (cs : List Candle) (i : ℕ) : ℚ :=
  listMax (pySlice (volsOf cs) (i - 10) (i + 1))

/-- One iteration of the ABCD scan at index i: none means the Python loop
continues (structural conditions or a validation gate failed); some r
means the loop breaks with the triggered result. -/
def abcdTry (cs : List Candle) (i : ℕ) : Option ABCDResult :=
  let highs := highsOf cs
  let vols := volsOf cs
  let times := timesOf cs
  if highs.getD i 0 ≤ highs.getD (i - 1) 0 ∨ highs.getD i 0 ≤ highs.getD (i + 1) 0 then
    none
  else if highs.getD (i + 1) 0 < highs.getD i 0 ∧ highs.getD (i + 2) 0 < highs.getD (i + 1) 0 then
    let peak := highs.getD i 0
    let w := cWalk cs i
    if w.1 < cs.length ∧ peak < highs.getD w.1 0 then
      if w.2 ≤ aPrice cs i then none
      else if peak - aPrice cs i ≤ 0 then none
      else if (peak - w.2) / (peak - aPrice cs i) < 1 / 5 ∨
          4 / 5 < (peak - w.2) / (peak - aPrice cs i) then none
      else if ¬ (pullList vols i w.1).isEmpty ∧
          impulseVolMax cs i ≤ listMax (pullList vols i w.1) then none
      else if vols.getD w.1 0 < 2 * pullAvg vols i w.1 then none
      else
        some ⟨true, some peak, some w.2, some (peak + (peak - aPrice cs i)),
          some (times.getD w.1 0)⟩
    else none
  else none

/-- The for-loop of _analyze_abcd over i in range(2, n-2). -/
def abcdLoop (cs : List Candle) : ℕ → ℕ → ABCDResult
  | 0, _ => ⟨false, none, none, none, none⟩
  | fuel + 1, i =>
    if i < cs.length - 2 then
      match abcdTry cs i with
      | some r => r
      | none => abcdLoop cs fuel (i + 1)
    else ⟨false, none, none, none, none⟩

/-- _analyze_abcd: fewer than 4 candles is untriggered, else scan. -/
def analyze_abcd (cs : List Candle) : ABCDResult :=
  if cs.length < 4 then ⟨false, none, none, none, none⟩
  else abcdLoop cs cs.length 2

end ABCD

/-- Scenario: GapAndGo with first candle high 10 / low 9.5, candle 2's
high 9.9 not exceeding 10, candle 3's high 10.2. -/
def gapGoScen : List Candle :=
  [⟨1, 49/5, 10, 19/2, 99/10, 100⟩,
   ⟨2, 99/10, 99/10, 48/5, 97/10, 80⟩,
   ⟨3, 10, 51/5, 49/5, 101/10, 120⟩]

/-- Scenario: FlatTop with highs [10, 10, 9.8, 10.3]. -/
def flatTopScen : List Candle :=
  [⟨0, 10, 10, 9, 10, 1⟩,
   ⟨1, 10, 10, 9, 10, 1⟩,
   ⟨2, 10, 49/5, 47/5, 48/5, 1⟩,
   ⟨3, 10, 103/10, 10, 10, 1⟩]

/-- Scenario: FlatBottom with lows [5, 5, 5.2, 4.8]. -/
def flatBottomScen : List Candle :=
  [⟨0, 6, 6, 5, 6, 1⟩,
   ⟨1, 6, 6, 5, 6, 1⟩,
   ⟨2, 6, 6, 26/5, 6, 1⟩,
   ⟨3, 6, 6, 24/5, 5, 1⟩]

/-- Scenario: a triggering BullFlag series — peak 10 at index 2, two
declining highs, breakout at index 5 on volume 20 against a consolidation
average of 4. -/
def bullFlagScen : List Candle :=
  [⟨0, 5, 5, 4, 5, 10⟩,
   ⟨1, 5, 5, 4, 5, 10⟩,
   ⟨2, 9, 10, 9, 10, 10⟩,
   ⟨3, 9, 9, 7, 8, 4⟩,
   ⟨4, 8, 8, 6, 7, 4⟩,
   ⟨5, 10, 11, 10, 11, 20⟩]

/-- Scenario: a triggering FirstPullback series — open 100, impulse to
110 on volume up to 60, pullback to 105 on volume 30, resumption at
candle 3. -/
def fpScen : List Candle :=
  [⟨0, 100, 104, 100, 104, 50⟩,
   ⟨1, 104, 110, 104, 109, 60⟩,
   ⟨2, 108, 108, 105, 106, 30⟩,
   ⟨3, 106, 109, 105, 108, 25⟩]

/-- Scenario: ABCD with A = 100, B = 110, C = 106 (retracement 0.4),
pullback volumes 40 and 30 below the impulse maximum 100, breakout volume
200 at least twice the pullback average 35. -/
def abcdScen : List Candle :=
  [⟨0, 101, 101, 100, 101, 50⟩,
   ⟨1, 101, 102, 101, 102, 60⟩,
   ⟨2, 103, 110, 109, 110, 100⟩,
   ⟨3, 109, 108, 107, 107, 40⟩,
   ⟨4, 107, 107, 106, 106, 30⟩,
   ⟨5, 108, 111, 110, 111, 200⟩]

example : GapAndGo.gap_and_go gapGoScen =
    Except.ok ⟨10, 19/2, true, some 10, some (19/2), some 3⟩ := by
  norm_num [gapGoScen, GapAndGo.gap_and_go, GapAndGo.gapGoFind]

example : FlatBreakout.analyze_flat_top flatTopScen =
    Except.ok ⟨true, some 10, some (47/5), some 3⟩ := by
  norm_num [flatTopScen, FlatBreakout.analyze_flat_top, FlatBreakout.flatTopLoop,
    FlatBreakout.stopAt, FlatBreakout.lastTouchIdx, highsOf, lowsOf, timesOf,
    pySlice, listMin, List.range_succ, abs]

example : FlatBreakout.analyze_flat_bottom flatBottomScen =
    Except.ok ⟨true, some 5, some 6, some 3⟩ := by
  norm_num [flatBottomScen, FlatBreakout.analyze_flat_bottom, FlatBreakout.flatBottomLoop,
    FlatBreakout.stopAtB, FlatBreakout.lastTouchIdx, highsOf, lowsOf, timesOf,
    pySlice, listMax, List.range_succ, abs]

example : BullFlag.analyze_bull_flag bullFlagScen =
    ⟨true, some 10, some 6, some 16, some 5⟩ := by
  norm_num [bullFlagScen, BullFlag.analyze_bull_flag, BullFlag.bullFlagLoop,
    BullFlag.bullFlagTry, BullFlag.walkAt, BullFlag.bullFlagWalk, BullFlag.consAvg,
    BullFlag.consList, highsOf, lowsOf, volsOf, timesOf, pySlice, listMin]

example : FirstPullback.analyze_first_pullback fpScen =
    ⟨true, some 108, some 105, some 110, some 3⟩ := by
  norm_num [fpScen, FirstPullback.analyze_first_pullback, FirstPullback.fpPhase1,
    FirstPullback.fpPhase2, highsOf, lowsOf, volsOf, timesOf, opensOf, pySlice, listMax]

example : ABCD.analyze_abcd abcdScen =
    ⟨true, some 110, some 106, some 120, some 5⟩ := by
  norm_num [abcdScen, ABCD.analyze_abcd, ABCD.abcdLoop, ABCD.abcdTry, ABCD.cWalk,
    ABCD.abcdWalk, ABCD.pullAvg, ABCD.pullList, ABCD.aPrice, ABCD.impulseVolMax,
    highsOf, lowsOf, volsOf, timesOf, pySlice, listMin, listMax]

example : VwapLevels.calc_vwap_levels [(10, 0)] =
    Except.ok ⟨VwapLevels.PFloat.nan, VwapLevels.BandVal.nan,
      VwapLevels.BandVal.nan, VwapLevels.StdResult.nan⟩ := by
  norm_num [VwapLevels.calc_vwap_levels, VwapLevels.compute_vwap, VwapLevels.cumsum,
    VwapLevels.cumsumAux, VwapLevels.pdDiv, VwapLevels.pandasStd, VwapLevels.pfSubFrom,
    VwapLevels.isInf, VwapLevels.toValQ, VwapLevels.pfMinusStd, VwapLevels.pfPlusStd]

example : GapScanner.scan_gap_up [⟨0, 100, 112⟩] (1/10) =
    [⟨0, 100, 112, 3/25⟩] := by
  norm_num [GapScanner.scan_gap_up, GapScanner.gapCandidates, GapScanner.mkRecord,
    GapScanner.trackMax, GapScanner.sortGapDesc, GapScanner.insertDesc]

/-- Generic list fact: appending one element to a non-empty list takes the
max of the running maximum and the new element. -/
theorem listMax_append_one (l : List ℚ) (x : ℚ) (h : l ≠ []) :
    listMax (l ++ [x]) = max (listMax l) x := by
  match l with
  | [] => exact absurd rfl h
  | y :: ys => simp [listMax, List.foldl_append]

/-- Generic list fact: appending one element to a non-empty list takes the
min of the running minimum and the new element. -/
theorem listMin_append_one (l : List ℚ) (x : ℚ) (h : l ≠ []) :
    listMin (l ++ [x]) = min (listMin l) x := by
  match l with
  | [] => exact absurd rfl h
  | y :: ys => simp [listMin, List.foldl_append]

/-- Generic list fact: a prefix one longer appends the element read at the
old endpoint. -/
theorem take_succ_getD {α : Type} [Inhabited α] (l : List α) (i : ℕ)
    (h : i < l.length) (d : α) :
    l.take (i + 1) = l.take i ++ [l.getD i d] := by
  rw [List.take_succ]
  congr 1
  rw [List.getElem?_eq_getElem h]
  simp [List.getD_eq_getElem?_getD, List.getElem?_eq_getElem h]

/-- C2: evaluation of the VWAP band computation at a zero-volume input:
on the one-candle series with close 10 and volume 0 (cumulative volume 0
at index 0) it returns an ordinary NaN-valued band — no error — and in
general it returns a band for every non-empty series, signalling no
data-quality error whatsoever. -/
theorem claim_C2 :
    VwapLevels.calc_vwap_levels [(10, 0)] =
      Except.ok ⟨VwapLevels.PFloat.nan, VwapLevels.BandVal.nan,
        VwapLevels.BandVal.nan, VwapLevels.StdResult.nan⟩ ∧
    ∀ bars : List (ℚ × ℚ), bars ≠ [] →
      ∃ band, VwapLevels.calc_vwap_levels bars = Except.ok band := by
  constructor
  · norm_num [VwapLevels.calc_vwap_levels, VwapLevels.compute_vwap, VwapLevels.cumsum,
      VwapLevels.cumsumAux, VwapLevels.pdDiv, VwapLevels.pandasStd, VwapLevels.pfSubFrom,
      VwapLevels.isInf, VwapLevels.toValQ, VwapLevels.pfMinusStd, VwapLevels.pfPlusStd]
  · intro bars hb
    match bars with
    | b :: bs => exact ⟨_, rfl⟩

/-- Witness for C2: the general no-error clause applied at the concrete
zero-volume series. -/
theorem claim_C2_witness :
    ([((10 : ℚ), (0 : ℚ))] ≠ ([] : List (ℚ × ℚ))) ∧
    ∃ band, VwapLevels.calc_vwap_levels [(10, 0)] = Except.ok band :=
  ⟨by simp, claim_C2.2 [(10, 0)] (by simp)⟩

/-- C1 counterexample: on the empty series the flat-top and flat-bottom
analyzers raise IndexError (they read highs[0] and lows[0] before any
length check) and the GapAndGo endpoint raises a no-minute-candles error,
instead of returning an untriggered result. -/
theorem claim_C1_counterexample :
    FlatBreakout.analyze_flat_top [] =
      Except.error "IndexError: list index out of range" ∧
    FlatBreakout.analyze_flat_bottom [] =
      Except.error "IndexError: list index out of range" ∧
    GapAndGo.gap_and_go [] = Except.error "No minute candles" :=
  ⟨rfl, rfl, rfl⟩

/-- The gap-and-go window scan returns the first candle whose high
strictly exceeds the reference high. -/
theorem gapGoFind_first (fh : ℚ) :
    ∀ (l : List Candle) (k : ℕ), k < l.length →
      (∀ m, m < k → (l.getD m dCandle).high ≤ fh) →
      fh < (l.getD k dCandle).high →
      GapAndGo.gapGoFind fh l = some (l.getD k dCandle) := by
  intro l
  induction l with
  | nil => intro k hk; simp at hk
  | cons c cs ih =>
    intro k hk hbefore hk2
    match k with
    | 0 =>
      simp only [List.getD_cons_zero] at hk2 ⊢
      simp [GapAndGo.gapGoFind, hk2]
    | k + 1 =>
      have hc : c.high ≤ fh := by
        have := hbefore 0 (Nat.succ_pos k)
        simpa using this
      have hrec := ih k (by simpa using hk)
        (fun m hm => by simpa using hbefore (m + 1) (Nat.succ_lt_succ hm))
        (by simpa using hk2)
      simp only [List.getD_cons_succ]
      simpa [GapAndGo.gapGoFind, not_lt.mpr hc] using hrec

/-- The gap-and-go window scan finds nothing when no high exceeds the
reference high. -/
theorem gapGoFind_none (fh : ℚ) :
    ∀ l : List Candle, (∀ c ∈ l, c.high ≤ fh) →
      GapAndGo.gapGoFind fh l = none := by
  intro l
  induction l with
  | nil => intro _; rfl
  | cons c cs ih =>
    intro hall
    have hc : c.high ≤ fh := hall c (List.mem_cons_self c cs)
    simp [GapAndGo.gapGoFind, not_lt.mpr hc,
      ih (fun d hd => hall d (List.mem_cons_of_mem c hd))]

/-- C4: for a series of at least 2 candles, GapAndGo triggers on the
first candle among positions 2..5 whose high strictly exceeds the first
candle's high fh, with entry fh, stop the first candle's low, trigger
time that candle's time, and no further scanning; if none of candles 2..5
exceeds fh the result is untriggered but still carries fh and fl.  In
particular the 10.0/9.5 series with candle 3 reaching 10.2 triggers with
entry 10, stop 9.5 and candle 3's timestamp. -/
theorem claim_C4 :
    (∀ (c0 : Candle) (rest : List Candle), 1 ≤ rest.length →
      (∀ k, k < (rest.take 4).length →
        (∀ m, m < k → ((rest.take 4).getD m dCandle).high ≤ c0.high) →
        c0.high < ((rest.take 4).getD k dCandle).high →
        GapAndGo.gap_and_go (c0 :: rest) =
          Except.ok ⟨c0.high, c0.low, true, some c0.high, some c0.low,
            some ((rest.take 4).getD k dCandle).time⟩) ∧
      ((∀ c ∈ rest.take 4, c.high ≤ c0.high) →
        GapAndGo.gap_and_go (c0 :: rest) =
          Except.ok ⟨c0.high, c0.low, false, none, none, none⟩)) ∧
    GapAndGo.gap_and_go gapGoScen =
      Except.ok ⟨10, 19/2, true, some 10, some (19/2), some 3⟩ := by
  constructor
  · intro c0 rest _
    constructor
    · intro k hk hbefore hover
      have := gapGoFind_first c0.high (rest.take 4) k hk hbefore hover
      simp [GapAndGo.gap_and_go, this]
    · intro hall
      have := gapGoFind_none c0.high (rest.take 4) hall
      simp [GapAndGo.gap_and_go, this]
  · norm_num [gapGoScen, GapAndGo.gap_and_go, GapAndGo.gapGoFind]

/-- Witness for C4: the first-match clause applied at the concrete
scenario series with k = 1. -/
theorem claim_C4_witness :
    GapAndGo.gap_and_go gapGoScen =
      Except.ok ⟨10, 19/2, true, some 10, some (19/2), some 3⟩ := by
  have h := (claim_C4.1 ⟨1, 49/5, 10, 19/2, 99/10, 100⟩
      [⟨2, 99/10, 99/10, 48/5, 97/10, 80⟩, ⟨3, 10, 51/5, 49/5, 101/10, 120⟩]
      (by norm_num)).1 1 (by norm_num)
      (by
        intro m hm
        interval_cases m
        norm_num)
      (by norm_num)
  norm_num at h
  norm_num [gapGoScen]
  exact h

/-- Generic list fact: an in-range getD read is the getElem read. -/
theorem getD_eq_getElem {α : Type} (l : List α) (i : ℕ) (h : i < l.length) (d : α) :
    l.getD i d = l[i] := by
  simp [List.getD_eq_getElem?_getD, List.getElem?_eq_getElem h]

/-- Characterization of the flat-top scanning loop: started at index i
with enough fuel and with running maximum equal to the maximum of the
first i highs, it either returns the untriggered all-none record, or
triggers at a breakout index k at or after i whose high exceeds the
prefix maximum after that maximum was counted at least twice, reporting
entry = prefix maximum, stop = stopAt, time = candle k's timestamp. -/
theorem flatTopLoop_char (highs lows : List ℚ) (times : List ℕ) :
    ∀ (fuel i : ℕ), 1 ≤ i → highs.length ≤ fuel + i →
      FlatBreakout.flatTopLoop highs lows times fuel i (listMax (highs.take i)) =
        ⟨false, none, none, none⟩ ∨
      ∃ k, i ≤ k ∧ k < highs.length ∧
        listMax (highs.take k) < highs.getD k 0 ∧
        2 ≤ (highs.take (k + 1)).count (listMax (highs.take k)) ∧
        FlatBreakout.flatTopLoop highs lows times fuel i (listMax (highs.take i)) =
          ⟨true, some (listMax (highs.take k)),
            some (FlatBreakout.stopAt highs lows (listMax (highs.take k)) k),
            some (times.getD k 0)⟩ := by
  intro fuel
  induction fuel with
  | zero => intro i h1 hlen; left; rfl
  | succ fuel ih =>
    intro i h1 hlen
    by_cases hi : i < highs.length
    · have hne : highs.take i ≠ [] := by
        apply List.ne_nil_of_length_pos
        rw [List.length_take]
        omega
      have hg : highs.getD i 0 = highs[i] := getD_eq_getElem highs i hi 0
      by_cases hgt : listMax (highs.take i) < highs.getD i 0
      · have hgt2 : listMax (highs.take i) < highs[i] := by rwa [hg] at hgt
        by_cases hcnt : 2 ≤ (highs.take (i + 1)).count (listMax (highs.take i))
        · right
          exact ⟨i, le_refl i, hi, hgt, hcnt, by
            simp [FlatBreakout.flatTopLoop, hi, hgt2, hcnt]⟩
        · have hmax : listMax (highs.take (i + 1)) = highs.getD i 0 := by
            rw [take_succ_getD highs i hi 0, listMax_append_one _ _ hne]
            exact max_eq_right (le_of_lt hgt)
          have step : FlatBreakout.flatTopLoop highs lows times (fuel + 1) i
                (listMax (highs.take i)) =
              FlatBreakout.flatTopLoop highs lows times fuel (i + 1)
                (listMax (highs.take (i + 1))) := by
            rw [hmax, hg]
            simp [FlatBreakout.flatTopLoop, hi, hgt2, hcnt]
          rw [step]
          rcases ih (i + 1) (by omega) (by omega) with h | ⟨k, hk1, hk2, hk3, hk4, hk5⟩
          · exact Or.inl h
          · exact Or.inr ⟨k, by omega, hk2, hk3, hk4, hk5⟩
      · have hgt2 : ¬ listMax (highs.take i) < highs[i] := by rwa [hg] at hgt
        have hmax : listMax (highs.take (i + 1)) = listMax (highs.take i) := by
          rw [take_succ_getD highs i hi 0, listMax_append_one _ _ hne]
          exact max_eq_left (not_lt.mp hgt)
        have step : FlatBreakout.flatTopLoop highs lows times (fuel + 1) i
              (listMax (highs.take i)) =
            FlatBreakout.flatTopLoop highs lows times fuel (i + 1)
              (listMax (highs.take (i + 1))) := by
          rw [hmax]
          simp [FlatBreakout.flatTopLoop, hi, hgt2]
        rw [step]
        rcases ih (i + 1) (by omega) (by omega) with h | ⟨k, hk1, hk2, hk3, hk4, hk5⟩
        · exact Or.inl h
        · exact Or.inr ⟨k, by omega, hk2, hk3, hk4, hk5⟩
    · left
      simp [FlatBreakout.flatTopLoop, hi]

/-- Characterization of the flat-bottom scanning loop, mirror image of
the flat-top one on the running minimum of the lows. -/
theorem flatBottomLoop_char (highs lows : List ℚ) (times : List ℕ) :
    ∀ (fuel i : ℕ), 1 ≤ i → lows.length ≤ fuel + i →
      FlatBreakout.flatBottomLoop highs lows times fuel i (listMin (lows.take i)) =
        ⟨false, none, none, none⟩ ∨
      ∃ k, i ≤ k ∧ k < lows.length ∧
        lows.getD k 0 < listMin (lows.take k) ∧
        2 ≤ (lows.take (k + 1)).count (listMin (lows.take k)) ∧
        FlatBreakout.flatBottomLoop highs lows times fuel i (listMin (lows.take i)) =
          ⟨true, some (listMin (lows.take k)),
            some (FlatBreakout.stopAtB highs lows (listMin (lows.take k)) k),
            some (times.getD k 0)⟩ := by
  intro fuel
  induction fuel with
  | zero => intro i h1 hlen; left; rfl
  | succ fuel ih =>
    intro i h1 hlen
    by_cases hi : i < lows.length
    · have hne : lows.take i ≠ [] := by
        apply List.ne_nil_of_length_pos
        rw [List.length_take]
        omega
      have hg : lows.getD i 0 = lows[i] := getD_eq_getElem lows i hi 0
      by_cases hgt : lows.getD i 0 < listMin (lows.take i)
      · have hgt2 : lows[i] < listMin (lows.take i) := by rwa [hg] at hgt
        by_cases hcnt : 2 ≤ (lows.take (i + 1)).count (listMin (lows.take i))
        · right
          exact ⟨i, le_refl i, hi, hgt, hcnt, by
            simp [FlatBreakout.flatBottomLoop, hi, hgt2, hcnt]⟩
        · have hmin : listMin (lows.take (i + 1)) = lows.getD i 0 := by
            rw [take_succ_getD lows i hi 0, listMin_append_one _ _ hne]
            exact min_eq_right (le_of_lt hgt)
          have step : FlatBreakout.flatBottomLoop highs lows times (fuel + 1) i
                (listMin (lows.take i)) =
              FlatBreakout.flatBottomLoop highs lows times fuel (i + 1)
                (listMin (lows.take (i + 1))) := by
            rw [hmin, hg]
            simp [FlatBreakout.flatBottomLoop, hi, hgt2, hcnt]
          rw [step]
          rcases ih (i + 1) (by omega) (by omega) with h | ⟨k, hk1, hk2, hk3, hk4, hk5⟩
          · exact Or.inl h
          · exact Or.inr ⟨k, by omega, hk2, hk3, hk4, hk5⟩
      · have hgt2 : ¬ lows[i] < listMin (lows.take i) := by rwa [hg] at hgt
        have hmin : listMin (lows.take (i + 1)) = listMin (lows.take i) := by
          rw [take_succ_getD lows i hi 0, listMin_append_one _ _ hne]
          exact min_eq_left (not_lt.mp hgt)
        have step : FlatBreakout.flatBottomLoop highs lows times (fuel + 1) i
              (listMin (lows.take i)) =
            FlatBreakout.flatBottomLoop highs lows times fuel (i + 1)
              (listMin (lows.take (i + 1))) := by
          rw [hmin]
          simp [FlatBreakout.flatBottomLoop, hi, hgt2]
        rw [step]
        rcases ih (i + 1) (by omega) (by omega) with h | ⟨k, hk1, hk2, hk3, hk4, hk5⟩
        · exact Or.inl h
        · exact Or.inr ⟨k, by omega, hk2, hk3, hk4, hk5⟩
    · left
      simp [FlatBreakout.flatBottomLoop, hi]

/-- C5: whenever the flat-top detector triggers, it does so at a breakout
candle k whose high exceeds the running maximum (the maximum of the highs
before k) after that maximum was counted at least twice, and it reports
entry = that previous running maximum, stop = the minimum low strictly
between the last touch of the level and the breakout candle (the
last-touch candle's own low when none lie between, as computed by
stopAt), and trigger time = the breakout candle's timestamp.  In
particular on highs [10, 10, 9.8, 10.3] it triggers with entry 10 and
stop = low[2]. -/
theorem claim_C5 :
    (∀ (cs : List Candle) (r : FlatBreakout.PatternResult),
      FlatBreakout.analyze_flat_top cs = Except.ok r → r.triggered = true →
      ∃ k, 1 ≤ k ∧ k < cs.length ∧
        listMax ((highsOf cs).take k) < (highsOf cs).getD k 0 ∧
        2 ≤ ((highsOf cs).take (k + 1)).count (listMax ((highsOf cs).take k)) ∧
        r.entry_price = some (listMax ((highsOf cs).take k)) ∧
        r.stop_price = some (FlatBreakout.stopAt (highsOf cs) (lowsOf cs)
          (listMax ((highsOf cs).take k)) k) ∧
        r.trigger_time = some ((timesOf cs).getD k 0)) ∧
    FlatBreakout.analyze_flat_top flatTopScen =
      Except.ok ⟨true, some 10, some (47/5), some 3⟩ ∧
    (lowsOf flatTopScen).getD 2 0 = 47/5 := by
  refine ⟨?_, ?_, by norm_num [flatTopScen, lowsOf]⟩
  · intro cs r hok htrig
    rcases cs with _ | ⟨c0, rest⟩
    · simp [FlatBreakout.analyze_flat_top] at hok
    · have hr : r = FlatBreakout.flatTopLoop (highsOf (c0 :: rest)) (lowsOf (c0 :: rest))
          (timesOf (c0 :: rest)) (c0 :: rest).length 1
          (listMax ((highsOf (c0 :: rest)).take 1)) := by
        simp only [FlatBreakout.analyze_flat_top, Except.ok.injEq] at hok
        exact hok.symm
      rcases flatTopLoop_char (highsOf (c0 :: rest)) (lowsOf (c0 :: rest))
          (timesOf (c0 :: rest)) (c0 :: rest).length 1 (le_refl 1)
          (by simp [highsOf]) with h | ⟨k, hk1, hk2, hk3, hk4, hk5⟩
      · rw [← hr] at h
        rw [h] at htrig
        simp at htrig
      · have hrr : r = ⟨true, some (listMax ((highsOf (c0 :: rest)).take k)),
            some (FlatBreakout.stopAt (highsOf (c0 :: rest)) (lowsOf (c0 :: rest))
              (listMax ((highsOf (c0 :: rest)).take k)) k),
            some ((timesOf (c0 :: rest)).getD k 0)⟩ := hr.trans hk5
        subst hrr
        exact ⟨k, hk1, by simpa [highsOf] using hk2, hk3, hk4, rfl, rfl, rfl⟩
  · norm_num [flatTopScen, FlatBreakout.analyze_flat_top, FlatBreakout.flatTopLoop,
      FlatBreakout.stopAt, FlatBreakout.lastTouchIdx, highsOf, lowsOf, timesOf,
      pySlice, listMin, List.range_succ, abs]

/-- Witness for C5: the characterization applied at the scenario series,
whose analysis triggers with entry 10, stop 9.4 and trigger time 3. -/
theorem claim_C5_witness :
    ∃ k, 1 ≤ k ∧ k < flatTopScen.length ∧
      listMax ((highsOf flatTopScen).take k) < (highsOf flatTopScen).getD k 0 ∧
      2 ≤ ((highsOf flatTopScen).take (k + 1)).count
        (listMax ((highsOf flatTopScen).take k)) ∧
      (some 10 : Option ℚ) = some (listMax ((highsOf flatTopScen).take k)) ∧
      (some (47/5) : Option ℚ) = some (FlatBreakout.stopAt (highsOf flatTopScen)
        (lowsOf flatTopScen) (listMax ((highsOf flatTopScen).take k)) k) ∧
      (some 3 : Option ℕ) = some ((timesOf flatTopScen).getD k 0) :=
  claim_C5.1 flatTopScen ⟨true, some 10, some (47/5), some 3⟩ claim_C5.2.1 rfl

/-- C9: whenever the flat-top detector triggers, the reported entry does
not exceed the maximum of the highs of the candles preceding the breakout
candle and occurs at least twice among them; symmetrically, whenever the
flat-bottom detector triggers, the reported entry is not below the
minimum of the preceding lows and occurs at least twice among them. -/
theorem claim_C9 :
    (∀ (cs : List Candle) (r : FlatBreakout.PatternResult),
      FlatBreakout.analyze_flat_top cs = Except.ok r → r.triggered = true →
      ∃ k e, k < cs.length ∧ r.trigger_time = some ((timesOf cs).getD k 0) ∧
        r.entry_price = some e ∧ e ≤ listMax ((highsOf cs).take k) ∧
        2 ≤ ((highsOf cs).take k).count e) ∧
    (∀ (cs : List Candle) (r : FlatBreakout.PatternResult),
      FlatBreakout.analyze_flat_bottom cs = Except.ok r → r.triggered = true →
      ∃ k e, k < cs.length ∧ r.trigger_time = some ((timesOf cs).getD k 0) ∧
        r.entry_price = some e ∧ listMin ((lowsOf cs).take k) ≤ e ∧
        2 ≤ ((lowsOf cs).take k).count e) := by
  constructor
  · intro cs r hok htrig
    rcases cs with _ | ⟨c0, rest⟩
    · simp [FlatBreakout.analyze_flat_top] at hok
    · have hr : r = FlatBreakout.flatTopLoop (highsOf (c0 :: rest)) (lowsOf (c0 :: rest))
          (timesOf (c0 :: rest)) (c0 :: rest).length 1
          (listMax ((highsOf (c0 :: rest)).take 1)) := by
        simp only [FlatBreakout.analyze_flat_top, Except.ok.injEq] at hok
        exact hok.symm
      rcases flatTopLoop_char (highsOf (c0 :: rest)) (lowsOf (c0 :: rest))
          (timesOf (c0 :: rest)) (c0 :: rest).length 1 (le_refl 1)
          (by simp [highsOf]) with h | ⟨k, hk1, hk2, hk3, hk4, hk5⟩
      · rw [← hr] at h
        rw [h] at htrig
        simp at htrig
      · have hrr : r = ⟨true, some (listMax ((highsOf (c0 :: rest)).take k)),
            some (FlatBreakout.stopAt (highsOf (c0 :: rest)) (lowsOf (c0 :: rest))
              (listMax ((highsOf (c0 :: rest)).take k)) k),
            some ((timesOf (c0 :: rest)).getD k 0)⟩ := hr.trans hk5
        subst hrr
        have hcount : 2 ≤ ((highsOf (c0 :: rest)).take k).count
            (listMax ((highsOf (c0 :: rest)).take k)) := by
          rw [take_succ_getD (highsOf (c0 :: rest)) k hk2 0, List.count_append,
            List.count_singleton', if_neg (ne_of_gt hk3), Nat.add_zero] at hk4
          exact hk4
        exact ⟨k, listMax ((highsOf (c0 :: rest)).take k),
          by simpa [highsOf] using hk2, rfl, rfl, le_refl _, hcount⟩
  · intro cs r hok htrig
    rcases cs with _ | ⟨c0, rest⟩
    · simp [FlatBreakout.analyze_flat_bottom] at hok
    · have hr : r = FlatBreakout.flatBottomLoop (highsOf (c0 :: rest)) (lowsOf (c0 :: rest))
          (timesOf (c0 :: rest)) (c0 :: rest).length 1
          (listMin ((lowsOf (c0 :: rest)).take 1)) := by
        simp only [FlatBreakout.analyze_flat_bottom, Except.ok.injEq] at hok
        exact hok.symm
      rcases flatBottomLoop_char (highsOf (c0 :: rest)) (lowsOf (c0 :: rest))
          (timesOf (c0 :: rest)) (c0 :: rest).length 1 (le_refl 1)
          (by simp [lowsOf]) with h | ⟨k, hk1, hk2, hk3, hk4, hk5⟩
      · rw [← hr] at h
        rw [h] at htrig
        simp at htrig
      · have hrr : r = ⟨true, some (listMin ((lowsOf (c0 :: rest)).take k)),
            some (FlatBreakout.stopAtB (highsOf (c0 :: rest)) (lowsOf (c0 :: rest))
              (listMin ((lowsOf (c0 :: rest)).take k)) k),
            some ((timesOf (c0 :: rest)).getD k 0)⟩ := hr.trans hk5
        subst hrr
        have hcount : 2 ≤ ((lowsOf (c0 :: rest)).take k).count
            (listMin ((lowsOf (c0 :: rest)).take k)) := by
          rw [take_succ_getD (lowsOf (c0 :: rest)) k hk2 0, List.count_append,
            List.count_singleton', if_neg (ne_of_lt hk3), Nat.add_zero] at hk4
          exact hk4
        exact ⟨k, listMin ((lowsOf (c0 :: rest)).take k),
          by simpa [lowsOf] using hk2, rfl, rfl, le_refl _, hcount⟩

/-- Witness for C9: both clauses applied at the concrete scenario series
on which the flat-top and flat-bottom analyzers trigger. -/
theorem claim_C9_witness :
    (∃ k e, k < flatTopScen.length ∧
      (some 3 : Option ℕ) = some ((timesOf flatTopScen).getD k 0) ∧
      (some 10 : Option ℚ) = some e ∧ e ≤ listMax ((highsOf flatTopScen).take k) ∧
      2 ≤ ((highsOf flatTopScen).take k).count e) ∧
    (∃ k e, k < flatBottomScen.length ∧
      (some 3 : Option ℕ) = some ((timesOf flatBottomScen).getD k 0) ∧
      (some 5 : Option ℚ) = some e ∧ listMin ((lowsOf flatBottomScen).take k) ≤ e ∧
      2 ≤ ((lowsOf flatBottomScen).take k).count e) := by
  constructor
  · exact claim_C9.1 flatTopScen ⟨true, some 10, some (47/5), some 3⟩
      (by norm_num [flatTopScen, FlatBreakout.analyze_flat_top, FlatBreakout.flatTopLoop,
        FlatBreakout.stopAt, FlatBreakout.lastTouchIdx, highsOf, lowsOf, timesOf,
        pySlice, listMin, List.range_succ, abs]) rfl
  · exact claim_C9.2 flatBottomScen ⟨true, some 5, some 6, some 3⟩
      (by norm_num [flatBottomScen, FlatBreakout.analyze_flat_bottom, FlatBreakout.flatBottomLoop,
        FlatBreakout.stopAtB, FlatBreakout.lastTouchIdx, highsOf, lowsOf, timesOf,
        pySlice, listMax, List.range_succ, abs]) rfl

/-- The bull-flag scan loop returns the untriggered record as soon as the
index leaves range(2, n-2). -/
theorem bullFlagLoop_stop (cs : List Candle) :
    ∀ fuel i, ¬ i < cs.length - 2 →
      BullFlag.bullFlagLoop cs fuel i = ⟨false, none, none, none, none⟩ := by
  intro fuel i h
  cases fuel with
  | zero => rfl
  | succ fuel => simp [BullFlag.bullFlagLoop, h]

/-- The ABCD scan loop returns the untriggered record as soon as the
index leaves range(2, n-2). -/
theorem abcdLoop_stop (cs : List Candle) :
    ∀ fuel i, ¬ i < cs.length - 2 →
      ABCD.abcdLoop cs fuel i = ⟨false, none, none, none, none⟩ := by
  intro fuel i h
  cases fuel with
  | zero => rfl
  | succ fuel => simp [ABCD.abcdLoop, h]

/-- C1 (amended): on every non-empty series shorter than the detector's
minimum length, each detector returns triggered = false with every
optional field absent and raises nothing; BullFlag, FirstPullback and
ABCD also do so on the empty series, while on the empty series the
FlatBreakout analyzers raise an index error and GapAndGo signals a
no-data error (see the counterexample). -/
theorem claim_C1 :
    (∀ c0 : Candle, GapAndGo.gap_and_go [c0] =
      Except.ok ⟨c0.high, c0.low, false, none, none, none⟩) ∧
    (∀ cs : List Candle, cs ≠ [] → cs.length < 3 →
      FlatBreakout.analyze_flat_top cs = Except.ok ⟨false, none, none, none⟩ ∧
      FlatBreakout.analyze_flat_bottom cs = Except.ok ⟨false, none, none, none⟩) ∧
    (∀ cs : List Candle, cs.length < 4 →
      BullFlag.analyze_bull_flag cs = ⟨false, none, none, none, none⟩) ∧
    (∀ cs : List Candle, cs.length < 2 →
      FirstPullback.analyze_first_pullback cs = ⟨false, none, none, none, none⟩) ∧
    (∀ cs : List Candle, cs.length < 4 →
      ABCD.analyze_abcd cs = ⟨false, none, none, none, none⟩) := by
  refine ⟨fun c0 => rfl, ?_, ?_, ?_, ?_⟩
  · intro cs hne hlen
    rcases cs with _ | ⟨c0, _ | ⟨c1, _ | ⟨c2, rest⟩⟩⟩
    · exact absurd rfl hne
    · exact ⟨rfl, rfl⟩
    · constructor
      · rcases flatTopLoop_char (highsOf [c0, c1]) (lowsOf [c0, c1]) (timesOf [c0, c1])
            ([c0, c1].length) 1 (le_refl 1) (by simp [highsOf])
          with h | ⟨k, hk1, hk2, hk3, hk4, _⟩
        · simpa only [FlatBreakout.analyze_flat_top, Except.ok.injEq] using h
        · exfalso
          have hk : k = 1 := by
            simp [highsOf] at hk2
            omega
          subst hk
          have hlt : c0.high < c1.high := by
            simpa [highsOf, listMax] using hk3
          have hne2 : c0.high ≠ c1.high := ne_of_lt hlt
          have : ((highsOf [c0, c1]).take (1 + 1)).count
              (listMax ((highsOf [c0, c1]).take 1)) = 1 := by
            simp [highsOf, listMax, List.count_cons, hne2]
          omega
      · rcases flatBottomLoop_char (highsOf [c0, c1]) (lowsOf [c0, c1]) (timesOf [c0, c1])
            ([c0, c1].length) 1 (le_refl 1) (by simp [lowsOf])
          with h | ⟨k, hk1, hk2, hk3, hk4, _⟩
        · simpa only [FlatBreakout.analyze_flat_bottom, Except.ok.injEq] using h
        · exfalso
          have hk : k = 1 := by
            simp [lowsOf] at hk2
            omega
          subst hk
          have hlt : c1.low < c0.low := by
            simpa [lowsOf, listMin] using hk3
          have hne2 : c0.low ≠ c1.low := (ne_of_lt hlt).symm
          have : ((lowsOf [c0, c1]).take (1 + 1)).count
              (listMin ((lowsOf [c0, c1]).take 1)) = 1 := by
            simp [lowsOf, listMin, List.count_cons, hne2]
          omega
    · exfalso
      simp at hlen
      omega
  · intro cs hlen
    exact bullFlagLoop_stop cs cs.length 2 (by omega)
  · intro cs hlen
    simp [FirstPullback.analyze_first_pullback, hlen]
  · intro cs hlen
    simp [ABCD.analyze_abcd, hlen]

/-- Witness for C1: each clause applied at a concrete short series. -/
theorem claim_C1_witness :
    GapAndGo.gap_and_go [⟨0, 1, 2, 1, 1, 1⟩] =
      Except.ok ⟨2, 1, false, none, none, none⟩ ∧
    FlatBreakout.analyze_flat_top [⟨0, 1, 2, 1, 1, 1⟩, ⟨1, 1, 3, 1, 1, 1⟩] =
      Except.ok ⟨false, none, none, none⟩ ∧
    FlatBreakout.analyze_flat_bottom [⟨0, 1, 2, 1, 1, 1⟩, ⟨1, 1, 3, 1, 1, 1⟩] =
      Except.ok ⟨false, none, none, none⟩ ∧
    BullFlag.analyze_bull_flag [⟨0, 1, 2, 1, 1, 1⟩] = ⟨false, none, none, none, none⟩ ∧
    FirstPullback.analyze_first_pullback [⟨0, 1, 2, 1, 1, 1⟩] =
      ⟨false, none, none, none, none⟩ ∧
    ABCD.analyze_abcd [⟨0, 1, 2, 1, 1, 1⟩] = ⟨false, none, none, none, none⟩ :=
  ⟨claim_C1.1 ⟨0, 1, 2, 1, 1, 1⟩,
   (claim_C1.2.1 [⟨0, 1, 2, 1, 1, 1⟩, ⟨1, 1, 3, 1, 1, 1⟩] (by simp) (by simp)).1,
   (claim_C1.2.1 [⟨0, 1, 2, 1, 1, 1⟩, ⟨1, 1, 3, 1, 1, 1⟩] (by simp) (by simp)).2,
   claim_C1.2.2.1 [⟨0, 1, 2, 1, 1, 1⟩] (by simp),
   claim_C1.2.2.2.1 [⟨0, 1, 2, 1, 1, 1⟩] (by simp),
   claim_C1.2.2.2.2 [⟨0, 1, 2, 1, 1, 1⟩] (by simp)⟩

/-- The consolidation walk never moves its index backwards. -/
theorem bullFlagWalk_ge (highs lows : List ℚ) (peak : ℚ) :
    ∀ fuel j ll, j ≤ (BullFlag.bullFlagWalk highs lows peak fuel j ll).1 := by
  intro fuel
  induction fuel with
  | zero => intro j ll; exact le_refl j
  | succ fuel ih =>
    intro j ll
    by_cases h : j < highs.length ∧ highs.getD j 0 ≤ peak
    · have hstep : BullFlag.bullFlagWalk highs lows peak (fuel + 1) j ll =
          BullFlag.bullFlagWalk highs lows peak fuel (j + 1)
            (if lows.getD j 0 < ll then lows.getD j 0 else ll) := by
        conv_lhs => rw [BullFlag.bullFlagWalk]
        rw [if_pos h]
      rw [hstep]
      exact le_trans (Nat.le_succ j) (ih (j + 1) _)
    · have hstep : BullFlag.bullFlagWalk highs lows peak (fuel + 1) j ll = (j, ll) := by
        conv_lhs => rw [BullFlag.bullFlagWalk]
        rw [if_neg h]
      rw [hstep]

/-- C10: whenever the bull-flag scan finds a breakout candidate j for a
local peak at i (that is, the forward walk from i+1 stopped inside the
series at a high above the peak), j is at least i+2, because the walk
always advances past i+1 whose high is below the peak; hence the
consolidation window volumes[i+1:j] is non-empty and the
single-next-candle default branch of cons_volumes is never taken. -/
theorem claim_C10 :
    ∀ (cs : List Candle) (i : ℕ),
      i + 1 < cs.length →
      (highsOf cs).getD (i + 1) 0 < (highsOf cs).getD i 0 →
      (BullFlag.walkAt cs i).1 < cs.length →
      (highsOf cs).getD i 0 < (highsOf cs).getD (BullFlag.walkAt cs i).1 0 →
      i + 2 ≤ (BullFlag.walkAt cs i).1 ∧
      BullFlag.consList (volsOf cs) i (BullFlag.walkAt cs i).1 =
        pySlice (volsOf cs) (i + 1) (BullFlag.walkAt cs i).1 ∧
      pySlice (volsOf cs) (i + 1) (BullFlag.walkAt cs i).1 ≠ [] := by
  intro cs i hi1 hdecl hj hbreak
  have hge : i + 1 ≤ (BullFlag.walkAt cs i).1 :=
    bullFlagWalk_ge (highsOf cs) (lowsOf cs) ((highsOf cs).getD i 0)
      cs.length (i + 1) ((highsOf cs).getD i 0)
  have hne : (BullFlag.walkAt cs i).1 ≠ i + 1 := by
    intro he
    rw [he] at hbreak
    exact absurd hbreak (not_lt.mpr (le_of_lt hdecl))
  have h2 : i + 2 ≤ (BullFlag.walkAt cs i).1 := by omega
  refine ⟨h2, ?_, ?_⟩
  · rw [BullFlag.consList, if_pos (by omega : i + 1 < (BullFlag.walkAt cs i).1)]
  · apply List.ne_nil_of_length_pos
    rw [pySlice, List.length_take, List.length_drop]
    have hv : (volsOf cs).length = cs.length := by simp [volsOf]
    omega

/-- Witness for C10: the walk of the triggering bull-flag scenario stops
at index 5 with lowest low 6, and the claim instantiated there. -/
theorem claim_C10_witness :
    BullFlag.walkAt bullFlagScen 2 = (5, 6) ∧
    2 + 2 ≤ (BullFlag.walkAt bullFlagScen 2).1 ∧
    BullFlag.consList (volsOf bullFlagScen) 2 (BullFlag.walkAt bullFlagScen 2).1 =
      pySlice (volsOf bullFlagScen) (2 + 1) (BullFlag.walkAt bullFlagScen 2).1 ∧
    pySlice (volsOf bullFlagScen) (2 + 1) (BullFlag.walkAt bullFlagScen 2).1 ≠ [] := by
  have hw : BullFlag.walkAt bullFlagScen 2 = (5, 6) := by
    norm_num [BullFlag.walkAt, BullFlag.bullFlagWalk, bullFlagScen, highsOf, lowsOf]
  have h := claim_C10 bullFlagScen 2 (by norm_num [bullFlagScen])
    (by norm_num [bullFlagScen, highsOf])
    (by rw [hw]; norm_num [bullFlagScen])
    (by rw [hw]; norm_num [bullFlagScen, highsOf])
  exact ⟨hw, h⟩

/-- The bull-flag scan loop either ends untriggered with all fields
absent, or breaks at some index k in range whose scan iteration produced
its result. -/
theorem bullFlagLoop_char (cs : List Candle) :
    ∀ fuel i, BullFlag.bullFlagLoop cs fuel i = ⟨false, none, none, none, none⟩ ∨
      ∃ k, i ≤ k ∧ k < cs.length - 2 ∧
        BullFlag.bullFlagTry cs k = some (BullFlag.bullFlagLoop cs fuel i) := by
  intro fuel
  induction fuel with
  | zero => intro i; left; rfl
  | succ fuel ih =>
    intro i
    by_cases hi : i < cs.length - 2
    · cases htry : BullFlag.bullFlagTry cs i with
      | some r =>
        have hstep : BullFlag.bullFlagLoop cs (fuel + 1) i = r := by
          simp [BullFlag.bullFlagLoop, hi, htry]
        exact Or.inr ⟨i, le_refl i, hi, by rw [hstep, htry]⟩
      | none =>
        have hstep : BullFlag.bullFlagLoop cs (fuel + 1) i =
            BullFlag.bullFlagLoop cs fuel (i + 1) := by
          simp [BullFlag.bullFlagLoop, hi, htry]
        rw [hstep]
        rcases ih (i + 1) with h | ⟨k, hk1, hk2, hk3⟩
        · exact Or.inl h
        · exact Or.inr ⟨k, by omega, hk2, hk3⟩
    · left
      simp [BullFlag.bullFlagLoop, hi]

/-- Inversion of a successful bull-flag scan iteration: the structural
peak conditions hold, the walk stopped inside the series at a high above
the peak, the breakout volume is at least twice the floored consolidation
average, and the result's fields are the peak as entry, the walk's lowest
low as stop, peak + (peak - lookback flagpole low) as target and the
breakout candle's timestamp. -/
theorem bullFlagTry_some (cs : List Candle) (i : ℕ) (r : BullFlag.BullFlagResult)
    (h : BullFlag.bullFlagTry cs i = some r) :
    (highsOf cs).getD (i - 1) 0 < (highsOf cs).getD i 0 ∧
    (highsOf cs).getD (i + 1) 0 < (highsOf cs).getD i 0 ∧
    (highsOf cs).getD (i + 2) 0 < (highsOf cs).getD (i + 1) 0 ∧
    (BullFlag.walkAt cs i).1 < cs.length ∧
    (highsOf cs).getD i 0 < (highsOf cs).getD (BullFlag.walkAt cs i).1 0 ∧
    2 * BullFlag.consAvg (volsOf cs) i (BullFlag.walkAt cs i).1 ≤
      (volsOf cs).getD (BullFlag.walkAt cs i).1 0 ∧
    r = ⟨true, some ((highsOf cs).getD i 0), some (BullFlag.walkAt cs i).2,
      some ((highsOf cs).getD i 0 + ((highsOf cs).getD i 0 -
        listMin (pySlice (lowsOf cs) (i - 10) (i + 1)))),
      some ((timesOf cs).getD (BullFlag.walkAt cs i).1 0)⟩ := by
  simp only [BullFlag.bullFlagTry] at h
  split_ifs at h with hA hB hC hD
  push_neg at hA
  exact ⟨hA.1, hB.1, hB.2, hC.1, hC.2, not_lt.mp hD, (Option.some.inj h).symm⟩

/-- C6: whenever BullFlag triggers, it does so at a local peak i (higher
than both neighbours, followed by two declining highs) whose forward walk
stopped at a breakout candle j inside the series with high above the
peak and volume at least twice the floored average volume of the
consolidation candles i+1..j-1, and the result reports entry = the peak
high, stop = the lowest low tracked over the consolidation, target =
peak + (peak - minimum low over the lookback window of up to 10 candles
ending at the peak), and trigger time = the breakout candle's
timestamp. -/
theorem claim_C6 :
    ∀ (cs : List Candle) (r : BullFlag.BullFlagResult),
      BullFlag.analyze_bull_flag cs = r → r.triggered = true →
      ∃ i, 2 ≤ i ∧ i < cs.length - 2 ∧
        (highsOf cs).getD (i - 1) 0 < (highsOf cs).getD i 0 ∧
        (highsOf cs).getD (i + 1) 0 < (highsOf cs).getD i 0 ∧
        (highsOf cs).getD (i + 2) 0 < (highsOf cs).getD (i + 1) 0 ∧
        (BullFlag.walkAt cs i).1 < cs.length ∧
        (highsOf cs).getD i 0 < (highsOf cs).getD (BullFlag.walkAt cs i).1 0 ∧
        2 * BullFlag.consAvg (volsOf cs) i (BullFlag.walkAt cs i).1 ≤
          (volsOf cs).getD (BullFlag.walkAt cs i).1 0 ∧
        r.entry_price = some ((highsOf cs).getD i 0) ∧
        r.stop_price = some (BullFlag.walkAt cs i).2 ∧
        r.target_price = some ((highsOf cs).getD i 0 + ((highsOf cs).getD i 0 -
          listMin (pySlice (lowsOf cs) (i - 10) (i + 1)))) ∧
        r.trigger_time = some ((timesOf cs).getD (BullFlag.walkAt cs i).1 0) := by
  intro cs r hr htrig
  rcases bullFlagLoop_char cs cs.length 2 with h | ⟨k, hk1, hk2, hk3⟩
  · have hu : BullFlag.analyze_bull_flag cs = ⟨false, none, none, none, none⟩ := h
    rw [hr] at hu
    rw [hu] at htrig
    simp at htrig
  · have hk : BullFlag.bullFlagTry cs k = some r := by
      have : BullFlag.bullFlagTry cs k = some (BullFlag.analyze_bull_flag cs) := hk3
      rw [hr] at this
      exact this
    obtain ⟨h1, h2, h3, h4, h5, h6, h7⟩ := bullFlagTry_some cs k r hk
    exact ⟨k, hk1, hk2, h1, h2, h3, h4, h5, h6,
      by rw [h7], by rw [h7], by rw [h7], by rw [h7]⟩

/-- Witness for C6: the characterization applied at the triggering
bull-flag scenario series. -/
theorem claim_C6_witness :
    ∃ i, 2 ≤ i ∧ i < bullFlagScen.length - 2 ∧
      (highsOf bullFlagScen).getD (i - 1) 0 < (highsOf bullFlagScen).getD i 0 ∧
      (highsOf bullFlagScen).getD (i + 1) 0 < (highsOf bullFlagScen).getD i 0 ∧
      (highsOf bullFlagScen).getD (i + 2) 0 < (highsOf bullFlagScen).getD (i + 1) 0 ∧
      (BullFlag.walkAt bullFlagScen i).1 < bullFlagScen.length ∧
      (highsOf bullFlagScen).getD i 0 <
        (highsOf bullFlagScen).getD (BullFlag.walkAt bullFlagScen i).1 0 ∧
      2 * BullFlag.consAvg (volsOf bullFlagScen) i (BullFlag.walkAt bullFlagScen i).1 ≤
        (volsOf bullFlagScen).getD (BullFlag.walkAt bullFlagScen i).1 0 ∧
      (some 10 : Option ℚ) = some ((highsOf bullFlagScen).getD i 0) ∧
      (some 6 : Option ℚ) = some (BullFlag.walkAt bullFlagScen i).2 ∧
      (some 16 : Option ℚ) = some ((highsOf bullFlagScen).getD i 0 +
        ((highsOf bullFlagScen).getD i 0 -
          listMin (pySlice (lowsOf bullFlagScen) (i - 10) (i + 1)))) ∧
      (some 5 : Option ℕ) = some ((timesOf bullFlagScen).getD
        (BullFlag.walkAt bullFlagScen i).1 0) :=
  claim_C6 bullFlagScen ⟨true, some 10, some 6, some 16, some 5⟩
    (by norm_num [bullFlagScen, BullFlag.analyze_bull_flag, BullFlag.bullFlagLoop,
      BullFlag.bullFlagTry, BullFlag.walkAt, BullFlag.bullFlagWalk, BullFlag.consAvg,
      BullFlag.consList, highsOf, lowsOf, volsOf, timesOf, pySlice, listMin]) rfl

/-- A Python slice starting in range decomposes as its head element
followed by the slice shifted by one. -/
theorem pySlice_cons {α : Type} (l : List α) (d : α) (a b : ℕ)
    (hab : a < b) (hal : a < l.length) :
    pySlice l a b = l.getD a d :: pySlice l (a + 1) b := by
  rw [pySlice, pySlice, List.drop_eq_getElem_cons hal, getD_eq_getElem l a hal d]
  rw [show b - a = (b - (a + 1)) + 1 by omega, List.take_succ_cons]

/-- A one-element Python slice in range is the singleton of the element. -/
theorem pySlice_singleton {α : Type} (l : List α) (d : α) (a : ℕ)
    (hal : a < l.length) :
    pySlice l a (a + 1) = [l.getD a d] := by
  rw [pySlice_cons l d a (a + 1) (Nat.lt_succ_self a) hal]
  rw [pySlice, Nat.sub_self, List.take_zero]

/-- Characterization of phase 2 of the first-pullback analysis: a
successful resumption search from index j0 stops at the first j at or
after j0 whose next candle's high exceeds candle j's high, returning
trigger index j+1, entry candidate highs[j], and the running minimum of
the lows over j0..j folded onto the initial pullback low. -/
theorem fpPhase2_char (cs : List Candle) :
    ∀ (fuel j0 : ℕ) (pb0 : ℚ) (t : ℕ) (e pb : ℚ),
      FirstPullback.fpPhase2 cs fuel j0 pb0 = some (t, e, pb) →
      ∃ j, t = j + 1 ∧ j0 ≤ j ∧ j + 1 < cs.length ∧
        (highsOf cs).getD j 0 < (highsOf cs).getD (j + 1) 0 ∧
        (∀ k, j0 ≤ k → k < j → ¬ (highsOf cs).getD k 0 < (highsOf cs).getD (k + 1) 0) ∧
        e = (highsOf cs).getD j 0 ∧
        pb = FirstPullback.pyMinFold pb0 (pySlice (lowsOf cs) j0 (j + 1)) := by
  intro fuel
  induction fuel with
  | zero => intro j0 pb0 t e pb h; exact Option.noConfusion h
  | succ fuel ih =>
    intro j0 pb0 t e pb h
    by_cases hj : j0 < cs.length - 1
    · have hjl : j0 < (lowsOf cs).length := by
        simp only [lowsOf, List.length_map]
        omega
      simp only [FirstPullback.fpPhase2] at h
      rw [if_pos hj] at h
      by_cases htr : (highsOf cs).getD j0 0 < (highsOf cs).getD (j0 + 1) 0
      · rw [if_pos htr] at h
        have h2 := Option.some.inj h
        rw [Prod.mk.injEq, Prod.mk.injEq] at h2
        obtain ⟨h21, h22, h23⟩ := h2
        refine ⟨j0, h21.symm, le_refl j0, by omega, htr, ?_, h22.symm, ?_⟩
        · intro k hk1 hk2
          omega
        · rw [pySlice_singleton (lowsOf cs) 0 j0 hjl]
          exact h23.symm
      · rw [if_neg htr] at h
        obtain ⟨j, hj1, hj2, hj3, hj4, hj5, hj6, hj7⟩ := ih (j0 + 1) _ t e pb h
        refine ⟨j, hj1, by omega, hj3, hj4, ?_, hj6, ?_⟩
        · intro k hk1 hk2
          rcases Nat.eq_or_lt_of_le hk1 with he | hlt
          · rw [← he]
            exact htr
          · exact hj5 k hlt hk2
        · rw [pySlice_cons (lowsOf cs) 0 j0 (j + 1) (by omega) hjl]
          exact hj7
    · simp only [FirstPullback.fpPhase2] at h
      rw [if_neg hj] at h
      exact Option.noConfusion h

/-- C7: for a series of at least 2 candles with positive open on which
phase 1 found a pullback start (ps, peak, peak volume) and phase 2 found
a resumption trigger (t, e, pb): the trigger sits at the first index j at
or after ps where candle j+1's high exceeds candle j's high (t = j+1,
e = highs[j], pb = the running minimum of the pullback lows); the result
is triggered iff all three gates pass — peak/open - 1 at least 3 percent,
maximum pullback volume strictly below the impulse's maximum volume, and
pullback low at least open + half the move; when they pass the result is
entry e, stop pb, target peak, trigger time = candle t's timestamp, and
when any fails every optional field is absent. -/
theorem claim_C7 (cs : List Candle) (ps pIdx : ℕ) (peak pv : ℚ) (t : ℕ) (e pb : ℚ)
    (hlen : 2 ≤ cs.length)
    (_hopen : 0 < (opensOf cs).getD 0 0)
    (h1 : FirstPullback.fpPhase1 cs cs.length 1 ((highsOf cs).getD 0 0) 0
      ((volsOf cs).getD 0 0) = some (ps, peak, pIdx, pv))
    (h2 : FirstPullback.fpPhase2 cs cs.length ps ((lowsOf cs).getD ps 0) =
      some (t, e, pb)) :
    (∃ j, t = j + 1 ∧ ps ≤ j ∧ j + 1 < cs.length ∧
      (highsOf cs).getD j 0 < (highsOf cs).getD (j + 1) 0 ∧
      (∀ k, ps ≤ k → k < j → ¬ (highsOf cs).getD k 0 < (highsOf cs).getD (k + 1) 0) ∧
      e = (highsOf cs).getD j 0 ∧
      pb = FirstPullback.pyMinFold ((lowsOf cs).getD ps 0)
        (pySlice (lowsOf cs) ps (j + 1))) ∧
    ((FirstPullback.analyze_first_pullback cs).triggered = true ↔
      (3 / 100 ≤ peak / (opensOf cs).getD 0 0 - 1 ∧
       listMax (pySlice (volsOf cs) ps t) < pv ∧
       (opensOf cs).getD 0 0 + (1 / 2) * (peak - (opensOf cs).getD 0 0) ≤ pb)) ∧
    ((3 / 100 ≤ peak / (opensOf cs).getD 0 0 - 1 ∧
      listMax (pySlice (volsOf cs) ps t) < pv ∧
      (opensOf cs).getD 0 0 + (1 / 2) * (peak - (opensOf cs).getD 0 0) ≤ pb) →
      FirstPullback.analyze_first_pullback cs =
        ⟨true, some e, some pb, some peak, some ((timesOf cs).getD t 0)⟩) ∧
    (¬ (3 / 100 ≤ peak / (opensOf cs).getD 0 0 - 1 ∧
        listMax (pySlice (volsOf cs) ps t) < pv ∧
        (opensOf cs).getD 0 0 + (1 / 2) * (peak - (opensOf cs).getD 0 0) ≤ pb) →
      FirstPullback.analyze_first_pullback cs = ⟨false, none, none, none, none⟩) := by
  have hana : FirstPullback.analyze_first_pullback cs =
      (if peak / (opensOf cs).getD 0 0 - 1 < 3 / 100 then
        (⟨false, none, none, none, none⟩ : FirstPullback.PullbackResult)
      else if pv ≤ listMax (pySlice (volsOf cs) ps t) then
        ⟨false, none, none, none, none⟩
      else if pb < (opensOf cs).getD 0 0 + 1 / 2 * (peak - (opensOf cs).getD 0 0) then
        ⟨false, none, none, none, none⟩
      else ⟨true, some e, some pb, some peak, some ((timesOf cs).getD t 0)⟩) := by
    rw [FirstPullback.analyze_first_pullback, if_neg (by omega : ¬ cs.length < 2)]
    simp only [h1, h2]
  have hpos : (3 / 100 ≤ peak / (opensOf cs).getD 0 0 - 1 ∧
      listMax (pySlice (volsOf cs) ps t) < pv ∧
      (opensOf cs).getD 0 0 + (1 / 2) * (peak - (opensOf cs).getD 0 0) ≤ pb) →
      FirstPullback.analyze_first_pullback cs =
        ⟨true, some e, some pb, some peak, some ((timesOf cs).getD t 0)⟩ := by
    intro hg
    rw [hana, if_neg (not_lt.mpr hg.1), if_neg (not_le.mpr hg.2.1),
      if_neg (not_lt.mpr (by linarith [hg.2.2]))]
  have hneg : ¬ (3 / 100 ≤ peak / (opensOf cs).getD 0 0 - 1 ∧
      listMax (pySlice (volsOf cs) ps t) < pv ∧
      (opensOf cs).getD 0 0 + (1 / 2) * (peak - (opensOf cs).getD 0 0) ≤ pb) →
      FirstPullback.analyze_first_pullback cs = ⟨false, none, none, none, none⟩ := by
    intro hn
    rw [hana]
    by_cases g1 : peak / (opensOf cs).getD 0 0 - 1 < 3 / 100
    · rw [if_pos g1]
    · by_cases g2 : pv ≤ listMax (pySlice (volsOf cs) ps t)
      · rw [if_neg g1, if_pos g2]
      · by_cases g3 : pb < (opensOf cs).getD 0 0 + 1 / 2 * (peak - (opensOf cs).getD 0 0)
        · rw [if_neg g1, if_neg g2, if_pos g3]
        · exact absurd ⟨not_lt.mp g1, not_le.mp g2, by linarith [not_lt.mp g3]⟩ hn
  refine ⟨fpPhase2_char cs cs.length ps _ t e pb h2, ⟨?_, ?_⟩, hpos, hneg⟩
  · intro ht
    by_contra hn
    rw [hneg hn] at ht
    simp at ht
  · intro hg
    rw [hpos hg]

/-- Witness for C7: instantiated at the triggering first-pullback
scenario series, whose gates all pass. -/
theorem claim_C7_witness :
    (FirstPullback.analyze_first_pullback fpScen).triggered = true := by
  have h := claim_C7 fpScen 2 1 110 60 3 108 105
    (by norm_num [fpScen])
    (by norm_num [fpScen, opensOf])
    (by norm_num [fpScen, FirstPullback.fpPhase1, highsOf, volsOf])
    (by norm_num [fpScen, FirstPullback.fpPhase2, highsOf, lowsOf])
  exact h.2.1.mpr (by norm_num [fpScen, opensOf, volsOf, pySlice, listMax])

/-- The ABCD pullback volume list is never empty when the breakout index
is inside the series. -/
theorem pullList_ne_nil (cs : List Candle) (i j : ℕ) (hj : j < cs.length) :
    ABCD.pullList (volsOf cs) i j ≠ [] := by
  rw [ABCD.pullList]
  split_ifs with h
  · apply List.ne_nil_of_length_pos
    rw [pySlice, List.length_take, List.length_drop]
    have hv : (volsOf cs).length = cs.length := by simp [volsOf]
    omega
  · simp

/-- C8: at any local-peak/breakout pair (B at index i, breakout at the
walk's stopping index) of a series of at least 4 candles, the ABCD scan
iteration triggers — with entry B, stop C (the walk's lowest low),
target B + (B - A) and the breakout candle's timestamp — iff all the
validation gates hold: C strictly above A, positive impulse B - A,
retracement ratio within [0.2, 0.8], maximum pullback volume strictly
below the maximum impulse volume, and breakout volume at least twice the
floored average pullback volume.  In particular the A=100, B=110, C=106
scenario series triggers with entry 110, stop 106, target 120. -/
theorem claim_C8 :
    (∀ (cs : List Candle) (i : ℕ),
      4 ≤ cs.length → 2 ≤ i → i < cs.length - 2 →
      (highsOf cs).getD (i - 1) 0 < (highsOf cs).getD i 0 →
      (highsOf cs).getD (i + 1) 0 < (highsOf cs).getD i 0 →
      (highsOf cs).getD (i + 2) 0 < (highsOf cs).getD (i + 1) 0 →
      (ABCD.cWalk cs i).1 < cs.length →
      (highsOf cs).getD i 0 < (highsOf cs).getD (ABCD.cWalk cs i).1 0 →
      (ABCD.abcdTry cs i =
        some ⟨true, some ((highsOf cs).getD i 0), some (ABCD.cWalk cs i).2,
          some ((highsOf cs).getD i 0 + ((highsOf cs).getD i 0 - ABCD.aPrice cs i)),
          some ((timesOf cs).getD (ABCD.cWalk cs i).1 0)⟩ ↔
        (ABCD.aPrice cs i < (ABCD.cWalk cs i).2 ∧
         0 < (highsOf cs).getD i 0 - ABCD.aPrice cs i ∧
         1 / 5 ≤ ((highsOf cs).getD i 0 - (ABCD.cWalk cs i).2) /
           ((highsOf cs).getD i 0 - ABCD.aPrice cs i) ∧
         ((highsOf cs).getD i 0 - (ABCD.cWalk cs i).2) /
           ((highsOf cs).getD i 0 - ABCD.aPrice cs i) ≤ 4 / 5 ∧
         listMax (ABCD.pullList (volsOf cs) i (ABCD.cWalk cs i).1) <
           ABCD.impulseVolMax cs i ∧
         2 * ABCD.pullAvg (volsOf cs) i (ABCD.cWalk cs i).1 ≤
           (volsOf cs).getD (ABCD.cWalk cs i).1 0))) ∧
    ABCD.analyze_abcd abcdScen = ⟨true, some 110, some 106, some 120, some 5⟩ := by
  constructor
  · intro cs i hn4 hi2 hirange hpk1 hpk2 hpk3 hj hbreak
    have hA : ¬ ((highsOf cs).getD i 0 ≤ (highsOf cs).getD (i - 1) 0 ∨
        (highsOf cs).getD i 0 ≤ (highsOf cs).getD (i + 1) 0) := by
      push_neg
      exact ⟨hpk1, hpk2⟩
    have hB : (highsOf cs).getD (i + 1) 0 < (highsOf cs).getD i 0 ∧
        (highsOf cs).getD (i + 2) 0 < (highsOf cs).getD (i + 1) 0 := ⟨hpk2, hpk3⟩
    have hC : (ABCD.cWalk cs i).1 < cs.length ∧
        (highsOf cs).getD i 0 < (highsOf cs).getD (ABCD.cWalk cs i).1 0 := ⟨hj, hbreak⟩
    constructor
    · intro hsome
      simp only [ABCD.abcdTry] at hsome
      rw [if_neg hA, if_pos hB, if_pos hC] at hsome
      split_ifs at hsome with g1 g2 g3 g4 g5
      have hg3 := not_or.mp g3
      refine ⟨not_le.mp g1, ?_, not_lt.mp hg3.1, not_lt.mp hg3.2, ?_, not_lt.mp g5⟩
      · have := not_le.mp g2
        linarith
      · rcases not_and_or.mp g4 with h4 | h4
        · exfalso
          apply pullList_ne_nil cs i (ABCD.cWalk cs i).1 hj
          rw [← List.isEmpty_iff]
          exact not_not.mp h4
        · exact not_le.mp h4
    · intro hg
      simp only [ABCD.abcdTry]
      rw [if_neg hA, if_pos hB, if_pos hC,
        if_neg (not_le.mpr hg.1),
        if_neg (not_le.mpr (by linarith [hg.2.1])),
        if_neg (not_or.mpr ⟨not_lt.mpr hg.2.2.1, not_lt.mpr hg.2.2.2.1⟩),
        if_neg (fun hc => absurd hc.2 (not_le.mpr hg.2.2.2.2.1)),
        if_neg (not_lt.mpr hg.2.2.2.2.2)]
  · norm_num [abcdScen, ABCD.analyze_abcd, ABCD.abcdLoop, ABCD.abcdTry, ABCD.cWalk,
      ABCD.abcdWalk, ABCD.pullAvg, ABCD.pullList, ABCD.aPrice, ABCD.impulseVolMax,
      highsOf, lowsOf, volsOf, timesOf, pySlice, listMin, listMax]

/-- Witness for C8: the per-pair equivalence applied at the scenario
series at i = 2, concluding with the concrete triggered record. -/
theorem claim_C8_witness :
    ABCD.abcdTry abcdScen 2 = some ⟨true, some 110, some 106, some 120, some 5⟩ := by
  have hw : ABCD.cWalk abcdScen 2 = (5, 106) := by
    norm_num [ABCD.cWalk, ABCD.abcdWalk, abcdScen, highsOf, lowsOf]
  have h := (claim_C8.1 abcdScen 2 (by norm_num [abcdScen]) (le_refl 2)
      (by norm_num [abcdScen])
      (by norm_num [abcdScen, highsOf])
      (by norm_num [abcdScen, highsOf])
      (by norm_num [abcdScen, highsOf])
      (by rw [hw]; norm_num [abcdScen])
      (by rw [hw]; norm_num [abcdScen, highsOf])).mpr
    (by
      rw [hw]
      norm_num [abcdScen, ABCD.aPrice, ABCD.impulseVolMax, ABCD.pullAvg, ABCD.pullList,
        highsOf, lowsOf, volsOf, pySlice, listMin, listMax])
  rw [h, hw]
  norm_num [abcdScen, ABCD.aPrice, highsOf, lowsOf, timesOf, pySlice, listMin]

/-- Membership in the descending insertion. -/
theorem mem_insertDesc (x a : GapScanner.GapRecord) :
    ∀ l, a ∈ GapScanner.insertDesc x l ↔ a = x ∨ a ∈ l := by
  intro l
  induction l with
  | nil => simp [GapScanner.insertDesc]
  | cons y ys ih =>
    rw [GapScanner.insertDesc]
    split_ifs with h
    · rw [List.mem_cons, ih, List.mem_cons]
      tauto
    · simp only [List.mem_cons]

/-- Membership is preserved by the stable descending sort. -/
theorem mem_sortGapDesc (a : GapScanner.GapRecord) :
    ∀ l, a ∈ GapScanner.sortGapDesc l ↔ a ∈ l := by
  intro l
  induction l with
  | nil => simp [GapScanner.sortGapDesc]
  | cons x xs ih =>
    rw [GapScanner.sortGapDesc, mem_insertDesc, List.mem_cons, ih]

/-- Descending insertion preserves gap-descending sortedness. -/
theorem sorted_insertDesc (x : GapScanner.GapRecord) :
    ∀ l, l.Pairwise (fun a b => b.gap ≤ a.gap) →
      (GapScanner.insertDesc x l).Pairwise (fun a b => b.gap ≤ a.gap) := by
  intro l
  induction l with
  | nil => intro _; simp [GapScanner.insertDesc]
  | cons y ys ih =>
    intro hp
    rw [List.pairwise_cons] at hp
    rw [GapScanner.insertDesc]
    split_ifs with h
    · rw [List.pairwise_cons]
      constructor
      · intro b hb
        rcases (mem_insertDesc x b ys).mp hb with rfl | hb2
        · exact le_of_lt h
        · exact hp.1 b hb2
      · exact ih hp.2
    · rw [List.pairwise_cons]
      constructor
      · intro b hb
        rcases List.mem_cons.mp hb with rfl | hb2
        · exact not_lt.mp h
        · exact le_trans (hp.1 b hb2) (not_lt.mp h)
      · exact List.pairwise_cons.mpr hp
    

/-- The output of the stable descending sort is gap-descending. -/
theorem sorted_sortGapDesc :
    ∀ l : List GapScanner.GapRecord,
      (GapScanner.sortGapDesc l).Pairwise (fun a b => b.gap ≤ a.gap) := by
  intro l
  induction l with
  | nil => simp [GapScanner.sortGapDesc]
  | cons x xs ih =>
    rw [GapScanner.sortGapDesc]
    exact sorted_insertDesc x _ ih

/-- Stability of the descending insertion: restricted to any fixed gap
value, inserting prepends the new record exactly when it carries that
value (records of strictly larger gap are passed, never equal ones). -/
theorem filter_insertDesc (q : ℚ) (x : GapScanner.GapRecord) :
    ∀ l, (GapScanner.insertDesc x l).filter (fun r => decide (r.gap = q)) =
      if x.gap = q then x :: l.filter (fun r => decide (r.gap = q))
      else l.filter (fun r => decide (r.gap = q)) := by
  intro l
  induction l with
  | nil =>
    rw [GapScanner.insertDesc]
    by_cases hx : x.gap = q
    · simp [List.filter, hx]
    · simp [List.filter, hx]
  | cons y ys ih =>
    rw [GapScanner.insertDesc]
    by_cases h : x.gap < y.gap
    · rw [if_pos h]
      by_cases hx : x.gap = q
      · have hy : ¬ y.gap = q := by
          intro hyq
          rw [← hx] at hyq
          rw [hyq] at h
          exact lt_irrefl _ h
        simp [List.filter_cons, hx, hy, ih]
      · simp [List.filter_cons, hx, ih]
    · rw [if_neg h]
      by_cases hx : x.gap = q
      · simp [List.filter_cons, hx]
      · simp [List.filter_cons, hx]

/-- Stability of the sort: restricted to any fixed gap value, the stable
descending sort is the identity (so equal-gap records keep their original
relative scan order). -/
theorem filter_sortGapDesc (q : ℚ) :
    ∀ l : List GapScanner.GapRecord,
      (GapScanner.sortGapDesc l).filter (fun r => decide (r.gap = q)) =
        l.filter (fun r => decide (r.gap = q)) := by
  intro l
  induction l with
  | nil => rfl
  | cons x xs ih =>
    rw [GapScanner.sortGapDesc, filter_insertDesc, ih]
    by_cases hx : x.gap = q
    · simp [List.filter_cons, hx]
    · simp [List.filter_cons, hx]

/-- Folding the max-gap tracker from a some-accumulator always yields a
record. -/
theorem foldl_trackMax_isSome (l : List GapScanner.GapRecord) :
    ∀ a : GapScanner.GapRecord,
      ∃ m, l.foldl GapScanner.trackMax (some a) = some m := by
  induction l with
  | nil => intro a; exact ⟨a, rfl⟩
  | cons r rs ih =>
    intro a
    rw [List.foldl_cons]
    by_cases h : a.gap < r.gap
    · simpa [GapScanner.trackMax, h] using ih r
    · simpa [GapScanner.trackMax, h] using ih a

/-- The max-gap tracker returns a record of the scanned list (or the
initial accumulator) whose gap bounds every scanned gap and the
accumulator's. -/
theorem foldl_trackMax_spec (l : List GapScanner.GapRecord) :
    ∀ (a m : GapScanner.GapRecord),
      l.foldl GapScanner.trackMax (some a) = some m →
      (m = a ∨ m ∈ l) ∧ a.gap ≤ m.gap ∧ ∀ r ∈ l, r.gap ≤ m.gap := by
  induction l with
  | nil =>
    intro a m h
    obtain rfl := Option.some.inj h
    exact ⟨Or.inl rfl, le_refl _, by simp⟩
  | cons r rs ih =>
    intro a m h
    rw [List.foldl_cons] at h
    by_cases hc : a.gap < r.gap
    · rw [show GapScanner.trackMax (some a) r = some r by
        simp [GapScanner.trackMax, hc]] at h
      obtain ⟨hmem, hle, hall⟩ := ih r m h
      refine ⟨?_, le_trans (le_of_lt hc) hle, ?_⟩
      · rcases hmem with rfl | hm
        · exact Or.inr (List.mem_cons_self _ _)
        · exact Or.inr (List.mem_cons_of_mem _ hm)
      · intro s hs
        rcases List.mem_cons.mp hs with rfl | hs2
        · exact hle
        · exact hall s hs2
    · rw [show GapScanner.trackMax (some a) r = some a by
        simp [GapScanner.trackMax, hc]] at h
      obtain ⟨hmem, hle, hall⟩ := ih a m h
      refine ⟨?_, hle, ?_⟩
      · rcases hmem with rfl | hm
        · exact Or.inl rfl
        · exact Or.inr (List.mem_cons_of_mem _ hm)
      · intro s hs
        rcases List.mem_cons.mp hs with rfl | hs2
        · exact le_trans (not_lt.mp hc) hle
        · exact hall s hs2

/-- C3: for a universe of instruments with positive previous closes and
any threshold, when some instrument meets the threshold the scan result
contains exactly the records with gap at least the threshold; when none
does but at least one instrument exists, the result is the single record
of maximum observed gap; and the result is always sorted by gap
descending with equal-gap records kept in original scan order (its
restriction to any fixed gap value equals that of the unsorted candidate
list, which is in scan order). -/
theorem claim_C3 (instrs : List GapScanner.Instr) (g : ℚ)
    (_hpos : ∀ a ∈ instrs, 0 < a.prevClose) :
    ((instrs.map GapScanner.mkRecord).filter (fun r => decide (g ≤ r.gap)) ≠ [] →
      ∀ r, r ∈ GapScanner.scan_gap_up instrs g ↔
        r ∈ instrs.map GapScanner.mkRecord ∧ g ≤ r.gap) ∧
    ((instrs.map GapScanner.mkRecord).filter (fun r => decide (g ≤ r.gap)) = [] →
      instrs ≠ [] →
      ∃ m, GapScanner.scan_gap_up instrs g = [m] ∧
        m ∈ instrs.map GapScanner.mkRecord ∧
        ∀ r ∈ instrs.map GapScanner.mkRecord, r.gap ≤ m.gap) ∧
    (GapScanner.scan_gap_up instrs g).Pairwise (fun a b => b.gap ≤ a.gap) ∧
    (∀ q : ℚ, (GapScanner.scan_gap_up instrs g).filter (fun r => decide (r.gap = q)) =
      (GapScanner.gapCandidates instrs g).filter (fun r => decide (r.gap = q))) := by
  refine ⟨?_, ?_, ?_, ?_⟩
  · intro hne r
    have hcand : GapScanner.gapCandidates instrs g =
        (instrs.map GapScanner.mkRecord).filter (fun r => decide (g ≤ r.gap)) := by
      rw [GapScanner.gapCandidates,
        if_neg (by simpa [List.isEmpty_iff] using hne)]
    rw [GapScanner.scan_gap_up, mem_sortGapDesc, hcand, List.mem_filter]
    simp
  · intro hemp hne
    obtain ⟨r0, rs, hr⟩ : ∃ r0 rs, instrs.map GapScanner.mkRecord = r0 :: rs := by
      rcases hl : instrs.map GapScanner.mkRecord with _ | ⟨r0, rs⟩
      · rw [List.map_eq_nil_iff] at hl
        exact absurd hl hne
      · exact ⟨r0, rs, rfl⟩
    obtain ⟨m, hm⟩ := foldl_trackMax_isSome rs r0
    have hfold : (instrs.map GapScanner.mkRecord).foldl GapScanner.trackMax none =
        some m := by
      rw [hr, List.foldl_cons]
      exact hm
    obtain ⟨hmem, hle, hall⟩ := foldl_trackMax_spec rs r0 m hm
    have hcand : GapScanner.gapCandidates instrs g = [m] := by
      rw [GapScanner.gapCandidates, hemp]
      simp only [List.isEmpty_nil, if_true]
      rw [hfold]
    refine ⟨m, ?_, ?_, ?_⟩
    · rw [GapScanner.scan_gap_up, hcand]
      rfl
    · rw [hr]
      rcases hmem with rfl | hmm
      · exact List.mem_cons_self _ _
      · exact List.mem_cons_of_mem _ hmm
    · intro r hrr
      rw [hr] at hrr
      rcases List.mem_cons.mp hrr with rfl | hr2
      · exact hle
      · exact hall r hr2
  · rw [GapScanner.scan_gap_up]
    exact sorted_sortGapDesc _
  · intro q
    rw [GapScanner.scan_gap_up, filter_sortGapDesc]

/-- Witness for C3: the membership clause at the single-instrument
universe with previous close 100 and open 112 (gap 0.12) against the
default 0.10 threshold. -/
theorem claim_C3_witness :
    GapScanner.GapRecord.mk 0 100 112 (3/25) ∈
        GapScanner.scan_gap_up [⟨0, 100, 112⟩] (1/10) ↔
      (GapScanner.GapRecord.mk 0 100 112 (3/25) ∈
          [GapScanner.Instr.mk 0 100 112].map GapScanner.mkRecord ∧
        (1/10 : ℚ) ≤ (GapScanner.GapRecord.mk 0 100 112 (3/25)).gap) := by
  have h := claim_C3 [⟨0, 100, 112⟩] (1/10)
    (by
      intro a ha
      rw [List.mem_singleton] at ha
      subst ha
      norm_num)
  exact h.1 (by norm_num [GapScanner.mkRecord, List.filter]) ⟨0, 100, 112, 3/25⟩
